import Mathlib

/-!
Verification development for the fertilizer supply-chain chaincode.

The embedding below models, from the source:
- the canonical JSON encoder used by the chaincode to store entities
  (composition of the sort-keys-recursive package and the deterministic
  stringify package);
- the Fertilizer / Delivery data model and the four mutating contract
  operations of the five-state chain variant (InitDeliveryWithFertilizer,
  AddFertilizerToDelivery, TransferDelivery, AcceptDelivery);
- the versioned-history query GetFertilizerHistory of the two-hop
  contract variant, which replays the ledger history iterator.

The ledger stub is modelled Fabric-style: getState reads the committed
world state, putState appends to the write set of the transaction, and
the write set is not visible to later getState calls of the same
transaction. Each operation therefore maps a committed state and its
arguments to a result together with the list of issued writes, in issue
order. Entities are stored decoded; the byte encoding of a stored entity
is canonicalEncode of its JSON image, which is deterministic, so equal
decoded states denote byte-identical ledgers. The original code throws
untyped Error values with message strings; here each throw site is given
a constructor of CCErr named after the error taxonomy of the design
document, and the original message template is recorded in a comment.
-/

namespace FabricSupply

/-- JSON-like values, the domain of the canonical encoder. Object fields
are kept as a list in insertion order, as a JavaScript object literal
records them. -/
inductive JValue where
  | null : JValue
  | bool (b : Bool) : JValue
  | num (n : Int) : JValue
  | str (s : String) : JValue
  | arr (elems : List JValue) : JValue
  | obj (fields : List (String × JValue)) : JValue

/-- Order on object fields: compare the keys. -/
def keyLe (p q : String × JValue) : Prop := p.1 ≤ q.1

/-- Strict order on object fields: compare the keys strictly. -/
def keyLt (p q : String × JValue) : Prop := p.1 < q.1

instance : DecidableRel keyLe := fun p q => inferInstanceAs (Decidable (p.1 ≤ q.1))

instance : IsTotal (String × JValue) keyLe := ⟨fun p q => le_total p.1 q.1⟩

instance : IsTrans (String × JValue) keyLe := ⟨fun _ _ _ h₁ h₂ => le_trans h₁ h₂⟩

instance : IsAntisymm (String × JValue) keyLt := ⟨fun _ _ h₁ h₂ => absurd h₁ (lt_asymm h₂)⟩

/-- Sorting of an object field list by key, as Array.prototype.sort on
the key strings does in the sort-keys-recursive package. -/
def sortPairs (fs : List (String × JValue)) : List (String × JValue) :=
  List.insertionSort keyLe fs

mutual

/-- Model of the sort-keys-recursive package: sort the keys of every
object, at every nesting depth. -/
def sortKeysRecursive : JValue → JValue
  | .null => .null
  | .bool b => .bool b
  | .num n => .num n
  | .str s => .str s
  | .arr es => .arr (sortKeysList es)
  | .obj fs => .obj (sortPairs (sortKeysFields fs))

/-- Recursive key sorting on every element of an array. -/
def sortKeysList : List JValue → List JValue
  | [] => []
  | v :: vs => sortKeysRecursive v :: sortKeysList vs

/-- Recursive key sorting on every value of a field list. -/
def sortKeysFields : List (String × JValue) → List (String × JValue)
  | [] => []
  | (k, v) :: fs => (k, sortKeysRecursive v) :: sortKeysFields fs

end

mutual

/-- Model of the deterministic stringify package: compact, whitespace
free JSON output. String escaping is elided (keys and values of the
chaincode do not contain characters needing escapes), and the key sort
performed by the package is the identity here because the chaincode
always feeds it the output of sortKeysRecursive. -/
def stringify : JValue → String
  | .null => "null"
  | .bool b => if b then "true" else "false"
  | .num n => toString n
  | .str s => "\"" ++ s ++ "\""
  | .arr es => "[" ++ stringifyList es ++ "]"
  | .obj fs => "\x7b" ++ stringifyFields fs ++ "\x7d"

/-- Comma-joined rendering of array elements. -/
def stringifyList : List JValue → String
  | [] => ""
  | [v] => stringify v
  | v :: vs => stringify v ++ "," ++ stringifyList vs

/-- Comma-joined rendering of object fields. -/
def stringifyFields : List (String × JValue) → String
  | [] => ""
  | [(k, v)] => "\"" ++ k ++ "\":" ++ stringify v
  | (k, v) :: fs => "\"" ++ k ++ "\":" ++ stringify v ++ "," ++ stringifyFields fs

end

/-- The canonical byte encoding the chaincode stores on the ledger:
Buffer.from of stringify of sortKeysRecursive. -/
def canonicalEncode (v : JValue) : String :=
  stringify (sortKeysRecursive v)

/-- Boolean check that a list of strings is weakly increasing. -/
def sortedStringsB : List String → Bool
  | [] => true
  | [_] => true
  | a :: b :: rest => decide (a ≤ b) && sortedStringsB (b :: rest)

mutual

/-- Well-formedness of a JSON value as the image of a JavaScript object
graph: the keys of every object are distinct, at every depth. -/
def wfJ : JValue → Bool
  | .null => true
  | .bool _ => true
  | .num _ => true
  | .str _ => true
  | .arr es => wfList es
  | .obj fs => decide ((fs.map Prod.fst).Nodup) && wfFields fs

/-- Well-formedness of every element of an array. -/
def wfList : List JValue → Bool
  | [] => true
  | v :: vs => wfJ v && wfList vs

/-- Well-formedness of every value of a field list. -/
def wfFields : List (String × JValue) → Bool
  | [] => true
  | (_, v) :: fs => wfJ v && wfFields fs

end

mutual

/-- Boolean check that every object of a JSON value lists its keys in
lexicographically sorted order, at every nesting depth. -/
def allKeysSorted : JValue → Bool
  | .null => true
  | .bool _ => true
  | .num _ => true
  | .str _ => true
  | .arr es => allKeysSortedList es
  | .obj fs => sortedStringsB (fs.map Prod.fst) && allKeysSortedFields fs

/-- Key-sortedness of every element of an array. -/
def allKeysSortedList : List JValue → Bool
  | [] => true
  | v :: vs => allKeysSorted v && allKeysSortedList vs

/-- Key-sortedness of every value of a field list. -/
def allKeysSortedFields : List (String × JValue) → Bool
  | [] => true
  | (_, v) :: fs => allKeysSorted v && allKeysSortedFields fs

end

/-- Two JSON values denote the same logical entity when they differ only
in the insertion order of object fields, at any nesting depth. -/
inductive JEquiv : JValue → JValue → Prop where
  | null : JEquiv .null .null
  | bool (b : Bool) : JEquiv (.bool b) (.bool b)
  | num (n : Int) : JEquiv (.num n) (.num n)
  | str (s : String) : JEquiv (.str s) (.str s)
  | arrNil : JEquiv (.arr []) (.arr [])
  | arrCons {v w : JValue} {vs ws : List JValue} :
      JEquiv v w → JEquiv (.arr vs) (.arr ws) → JEquiv (.arr (v :: vs)) (.arr (w :: ws))
  | objNil : JEquiv (.obj []) (.obj [])
  | objCons {k : String} {v w : JValue} {fs gs : List (String × JValue)} :
      JEquiv v w → JEquiv (.obj fs) (.obj gs) →
      JEquiv (.obj ((k, v) :: fs)) (.obj ((k, w) :: gs))
  | objPerm {fs fs' : List (String × JValue)} {g : JValue} :
      fs.Perm fs' → JEquiv (.obj fs') g → JEquiv (.obj fs) g

/-- One entry of the internal history array of a fertilizer unit,
mirroring the FertilizerHistoryEntry typedef of the contract. Optional
fields are absent on entries that do not record an ownership change. -/
structure HistoryEntry where
  timestamp : String
  actorOrg : String
  actorId : String
  action : String
  previousOwnerOrg : Option String := none
  previousOwnerId : Option String := none
  newOwnerOrg : Option String := none
  newOwnerId : Option String := none
deriving Repr, DecidableEq

/-- A fertilizer unit, mirroring the Fertilizer typedef of the contract. -/
structure Fertilizer where
  docType : String := ""
  fertilizerId : String
  productType : String
  quantity : Int
  currentOwnerOrg : String
  currentOwnerId : String
  deliveryId : Option String := none
  status : String
  history : List HistoryEntry
deriving Repr, DecidableEq

/-- A delivery, mirroring the Delivery typedef of the contract. -/
structure Delivery where
  docType : String := ""
  deliveryId : String
  supplierOrg : String
  supplierId : String
  currentTransporterOrg : Option String := none
  currentTransporterId : Option String := none
  agrodealerOrg : Option String := none
  agrodealerId : Option String := none
  fertilizerIds : List String
  status : String
  createdAt : String
  lastUpdated : String
deriving Repr, DecidableEq

/-- A value stored under a ledger key. Fertilizers and deliveries share
one keyspace. The source stores the canonical JSON bytes of the entity;
the embedding stores the decoded entity, and canonicalEncode of its
field map gives the bytes, so equal states denote byte-identical
ledgers. -/
inductive Entity where
  | fert (f : Fertilizer) : Entity
  | deliv (d : Delivery) : Entity
deriving Repr, DecidableEq

/-- Typed error for each throw site of the contract, named after the
error taxonomy of the design document. The source throws untyped Error
values whose message strings are recorded in comments at each site.
unauthorizedOrInvalidState stands for the two merged rejections whose
messages read "not authorized or ... not in a ... state". -/
inductive CCErr where
  | unauthorized : CCErr
  | notFound : CCErr
  | alreadyExists : CCErr
  | invalidState : CCErr
  | ownershipMismatch : CCErr
  | recipientMismatch : CCErr
  | contentMismatch : CCErr
  | unauthorizedOrInvalidState : CCErr
deriving Repr, DecidableEq

instance : DecidableEq (Except CCErr Unit) := fun a b =>
  match a, b with
  | .ok (), .ok () => isTrue rfl
  | .error e₁, .error e₂ =>
    if h : e₁ = e₂ then isTrue (by rw [h]) else isFalse (fun hc => by cases hc; exact h rfl)
  | .ok _, .error _ => isFalse (fun hc => by cases hc)
  | .error _, .ok _ => isFalse (fun hc => by cases hc)

/-- The committed world state of the ledger, as a key-value map. -/
abbrev WorldState : Type := String → Option Entity

/-- A list of issued putState calls, in issue order. -/
abbrev WriteSet : Type := List (String × Entity)

/-- Point read of the committed state, as ctx.stub.getState. Fabric does
not expose the pending write set of the running transaction to getState,
so reads always target the committed state. -/
def getState (s : WorldState) (k : String) : Option Entity := s k

/-- Application of one committed write to the world state. -/
def putState (s : WorldState) (k : String) (v : Entity) : WorldState :=
  fun k' => if k' = k then some v else s k'

/-- The world state denoted by a committed transaction: the issued
writes applied in order, later writes winning. -/
def applyWrites (s : WorldState) (ws : WriteSet) : WorldState :=
  ws.foldl (fun acc kv => putState acc kv.1 kv.2) s

/-- Helper _putFertilizer of the contract: stamp docType and write the
unit under its own fertilizerId key. -/
def _putFertilizer (f : Fertilizer) : String × Entity :=
  (f.fertilizerId, .fert { f with docType := "fertilizer" })

/-- Helper _putDelivery of the contract: stamp docType and write the
delivery under its own deliveryId key. -/
def _putDelivery (d : Delivery) : String × Entity :=
  (d.deliveryId, .deliv { d with docType := "delivery" })

/-- Operation 1 of the contract, InitDeliveryWithFertilizer: the caller
identity (callerOrg, callerId) and the transaction timestamp ts come
from the ambient context. Returns the call result and the issued writes.
A key holding an entity of the unexpected kind is outside the shared
keyspace invariant of the data model; on such a key the JavaScript
original would proceed with undefined fields, the embedding does not
model that degenerate path (existence checks only test presence). -/
def InitDeliveryWithFertilizer (s : WorldState) (callerOrg callerId ts : String)
    (deliveryId fertilizerId productType : String) (quantity : Int)
    (agrodealerOrg agrodealerId : String) : Except CCErr Unit × WriteSet :=
  -- "Caller ... is not authorized to initiate deliveries."
  if callerOrg ≠ "Org1MSP" then (.error .unauthorized, [])
  -- "Fertilizer with ID ... already exists."
  else if (getState s fertilizerId).isSome then (.error .alreadyExists, [])
  else
    let newFertilizer : Fertilizer :=
      { fertilizerId := fertilizerId
        productType := productType
        quantity := quantity
        currentOwnerOrg := callerOrg
        currentOwnerId := callerId
        deliveryId := some deliveryId
        status := "REGISTERED"
        history := [{ timestamp := ts, actorOrg := callerOrg, actorId := callerId,
                      action := "REGISTERED_AND_INITIATED_DELIVERY",
                      newOwnerOrg := some callerOrg, newOwnerId := some callerId }] }
    let w1 : WriteSet := [_putFertilizer newFertilizer]
    -- "Delivery with ID ... already exists."
    if (getState s deliveryId).isSome then (.error .alreadyExists, w1)
    else
      let newDelivery : Delivery :=
        { deliveryId := deliveryId
          supplierOrg := callerOrg
          supplierId := callerId
          agrodealerOrg := some agrodealerOrg
          agrodealerId := some agrodealerId
          fertilizerIds := [fertilizerId]
          status := "INITIATED"
          createdAt := ts
          lastUpdated := ts }
      (.ok (), w1 ++ [_putDelivery newDelivery])

/-- Operation 2 of the contract, AddFertilizerToDelivery. -/
def AddFertilizerToDelivery (s : WorldState) (callerOrg callerId ts : String)
    (deliveryId fertilizerId productType : String) (quantity : Int) :
    Except CCErr Unit × WriteSet :=
  -- "Caller ... is not authorized to add fertilizers to deliveries."
  if callerOrg ≠ "Org1MSP" then (.error .unauthorized, [])
  else
    match getState s deliveryId with
    -- "Delivery with ID ... does not exist" (thrown by _getDelivery)
    | some (.deliv delivery) =>
      -- "Delivery ... was not initiated by current supplier ..."
      if delivery.supplierOrg ≠ callerOrg then (.error .unauthorized, [])
      -- "Fertilizers can only be added to a delivery in INITIATED status. ..."
      else if delivery.status ≠ "INITIATED" then (.error .invalidState, [])
      -- "Fertilizer with ID ... already exists or is already part of another delivery."
      else if (getState s fertilizerId).isSome then (.error .alreadyExists, [])
      else
        let newFertilizer : Fertilizer :=
          { fertilizerId := fertilizerId
            productType := productType
            quantity := quantity
            currentOwnerOrg := callerOrg
            currentOwnerId := callerId
            deliveryId := some deliveryId
            status := "REGISTERED"
            history := [{ timestamp := ts, actorOrg := callerOrg, actorId := callerId,
                          action := "ADDED_TO_DELIVERY",
                          newOwnerOrg := some callerOrg, newOwnerId := some callerId }] }
        (.ok (), [_putFertilizer newFertilizer,
                  _putDelivery { delivery with
                    fertilizerIds := delivery.fertilizerIds ++ [fertilizerId],
                    lastUpdated := ts }])
    | _ => (.error .notFound, [])

/-- The updated record a member unit receives during TransferDelivery:
status becomes IN_DELIVERY and one transfer event is appended; the owner
fields stay as they are until acceptance. -/
def transferredFert (currentOwnerOrg currentOwnerId ts transferAction
    newOwnerOrg newOwnerId : String) (f : Fertilizer) : Fertilizer :=
  { f with
    status := "IN_DELIVERY"
    history := f.history ++
      [{ timestamp := ts, actorOrg := currentOwnerOrg, actorId := currentOwnerId,
         action := transferAction,
         previousOwnerOrg := some f.currentOwnerOrg,
         previousOwnerId := some f.currentOwnerId,
         newOwnerOrg := some newOwnerOrg, newOwnerId := some newOwnerId }] }

/-- Per-unit loop of TransferDelivery over the member unit ids. Reads
target the committed state; the pair returned is the loop outcome and
the writes issued before the loop returned or threw. -/
def transferUnits (s : WorldState) (currentOwnerOrg currentOwnerId ts
    transferAction newOwnerOrg newOwnerId : String) :
    List String → Except CCErr Unit × WriteSet
  | [] => (.ok (), [])
  | fid :: rest =>
    match getState s fid with
    | some (.fert f) =>
      -- "Fertilizer ... is not owned by the transferring party (...). ..."
      if f.currentOwnerOrg ≠ currentOwnerOrg then (.error .ownershipMismatch, [])
      else
        let r := transferUnits s currentOwnerOrg currentOwnerId ts
          transferAction newOwnerOrg newOwnerId rest
        (r.1, _putFertilizer (transferredFert currentOwnerOrg currentOwnerId ts
          transferAction newOwnerOrg newOwnerId f) :: r.2)
    -- "Fertilizer with ID ... does not exist" (thrown by _getFertilizer)
    | _ => (.error .notFound, [])

/-- Tail of TransferDelivery shared by both phases: run the unit loop,
then write the delivery with its new status. -/
def transferFinish (s : WorldState) (callerOrg callerId ts transferAction
    newDeliveryStatus newOwnerOrg newOwnerId : String) (delivery : Delivery) :
    Except CCErr Unit × WriteSet :=
  let r := transferUnits s callerOrg callerId ts transferAction
    newOwnerOrg newOwnerId delivery.fertilizerIds
  match r.1 with
  | .error e => (.error e, r.2)
  | .ok () => (.ok (), r.2 ++
      [_putDelivery { delivery with status := newDeliveryStatus, lastUpdated := ts }])

/-- Operation 3 of the contract, TransferDelivery. -/
def TransferDelivery (s : WorldState) (callerOrg callerId ts : String)
    (deliveryId newOwnerOrg newOwnerId : String) : Except CCErr Unit × WriteSet :=
  match getState s deliveryId with
  | some (.deliv delivery) =>
    if callerOrg = "Org1MSP" ∧ delivery.status = "INITIATED" then
      -- "Cannot transfer delivery from Supplier to ... . Expected Transporter (Org2MSP)."
      if newOwnerOrg ≠ "Org2MSP" then (.error .unauthorized, [])
      else
        transferFinish s callerOrg callerId ts "TRANSFER_INITIATED_TO_TRANSPORTER"
          "IN_TRANSIT_TO_TRANSPORTER" newOwnerOrg newOwnerId
          { delivery with currentTransporterOrg := some newOwnerOrg,
                          currentTransporterId := some newOwnerId }
    else if callerOrg = "Org2MSP" ∧ delivery.status = "TRANSFERRED_TO_TRANSPORTER" then
      -- "Cannot transfer delivery from Transporter to ... . Expected Agrodealer (Org3MSP)."
      if newOwnerOrg ≠ "Org3MSP" then (.error .unauthorized, [])
      else
        transferFinish s callerOrg callerId ts "TRANSFER_INITIATED_TO_AGRODEALER"
          "IN_TRANSIT_TO_AGRODEALER" newOwnerOrg newOwnerId delivery
    -- "Caller ... is not authorized or Delivery ... is not in a transferable state. ..."
    else (.error .unauthorizedOrInvalidState, [])
  -- "Delivery with ID ... does not exist" (thrown by _getDelivery)
  | _ => (.error .notFound, [])

/-- The updated record a member unit receives during AcceptDelivery:
ownership moves to the acceptor, the status becomes the received status
of the hop, and one received event is appended. -/
def acceptedFert (acceptorOrg acceptorId ts : String)
    (previousOwnerOrg previousOwnerId : Option String) (acceptAction : String)
    (f : Fertilizer) : Fertilizer :=
  { f with
    currentOwnerOrg := acceptorOrg
    currentOwnerId := acceptorId
    status := if acceptorOrg = "Org3MSP" then "DELIVERED_TO_AGRODEALER"
              else "TRANSFERRED_TO_NEXT_PARTY"
    history := f.history ++
      [{ timestamp := ts, actorOrg := acceptorOrg, actorId := acceptorId,
         action := acceptAction,
         previousOwnerOrg := previousOwnerOrg, previousOwnerId := previousOwnerId,
         newOwnerOrg := some acceptorOrg, newOwnerId := some acceptorId }] }

/-- Per-unit loop of AcceptDelivery over the member unit ids. In the
source previousOwnerOrg can be undefined (agrodealer phase of a delivery
whose transporter fields were never set), hence the Option type; the
strict inequality of the source then always reports a mismatch. -/
def acceptUnits (s : WorldState) (acceptorOrg acceptorId ts : String)
    (previousOwnerOrg previousOwnerId : Option String) (acceptAction : String) :
    List String → Except CCErr Unit × WriteSet
  | [] => (.ok (), [])
  | fid :: rest =>
    match getState s fid with
    | some (.fert f) =>
      -- "Fertilizer ... owner mismatch for acceptance. Expected ..., found ... ."
      if some f.currentOwnerOrg ≠ previousOwnerOrg then (.error .ownershipMismatch, [])
      -- "Fertilizer ... is not marked as IN_DELIVERY and cannot be accepted."
      else if f.status ≠ "IN_DELIVERY" then (.error .invalidState, [])
      else
        let r := acceptUnits s acceptorOrg acceptorId ts
          previousOwnerOrg previousOwnerId acceptAction rest
        (r.1, _putFertilizer (acceptedFert acceptorOrg acceptorId ts
          previousOwnerOrg previousOwnerId acceptAction f) :: r.2)
    -- "Fertilizer with ID ... does not exist" (thrown by _getFertilizer)
    | _ => (.error .notFound, [])

/-- Tail of AcceptDelivery shared by both phases: content check, unit
loop, then the delivery write with its new status. -/
def acceptFinish (s : WorldState) (acceptorOrg acceptorId ts : String)
    (scannedFertilizerIds : List String) (delivery : Delivery)
    (previousOwnerOrg previousOwnerId : Option String)
    (newDeliveryStatus acceptAction : String) : Except CCErr Unit × WriteSet :=
  -- "Scanned fertilizers do not match expected contents of delivery ... ."
  if delivery.fertilizerIds.length ≠ scannedFertilizerIds.length ∨
      ¬ (∀ id ∈ delivery.fertilizerIds, id ∈ scannedFertilizerIds) then
    (.error .contentMismatch, [])
  else
    let r := acceptUnits s acceptorOrg acceptorId ts
      previousOwnerOrg previousOwnerId acceptAction delivery.fertilizerIds
    match r.1 with
    | .error e => (.error e, r.2)
    | .ok () => (.ok (), r.2 ++
        [_putDelivery { delivery with status := newDeliveryStatus, lastUpdated := ts }])

/-- Operation 4 of the contract, AcceptDelivery. The scanned ids arrive
as a JSON string in the source; its JSON.parse happens before any ledger
access and is taken as given here. -/
def AcceptDelivery (s : WorldState) (acceptorOrg acceptorId ts : String)
    (deliveryId : String) (scannedFertilizerIds : List String) :
    Except CCErr Unit × WriteSet :=
  match getState s deliveryId with
  | some (.deliv delivery) =>
    if delivery.status = "IN_TRANSIT_TO_TRANSPORTER" ∧ acceptorOrg = "Org2MSP" then
      -- "Transporter ... is not assigned to accept delivery ... . Assigned: ..."
      if delivery.currentTransporterId ≠ some acceptorId then (.error .recipientMismatch, [])
      else
        acceptFinish s acceptorOrg acceptorId ts scannedFertilizerIds
          { delivery with currentTransporterOrg := some acceptorOrg,
                          currentTransporterId := some acceptorId }
          (some delivery.supplierOrg) (some delivery.supplierId)
          "TRANSFERRED_TO_TRANSPORTER" "RECEIVED_BY_TRANSPORTER"
    else if delivery.status = "IN_TRANSIT_TO_AGRODEALER" ∧ acceptorOrg = "Org3MSP" then
      -- "Agrodealer ... is not the intended recipient for delivery ... . Intended: ..."
      if delivery.agrodealerId ≠ some acceptorId then (.error .recipientMismatch, [])
      else
        acceptFinish s acceptorOrg acceptorId ts scannedFertilizerIds
          { delivery with agrodealerOrg := some acceptorOrg,
                          agrodealerId := some acceptorId }
          delivery.currentTransporterOrg delivery.currentTransporterId
          "COMPLETED" "RECEIVED_BY_AGRODEALER"
    -- "Caller ... not authorized or Delivery ... not in a valid in transit state ..."
    else (.error .unauthorizedOrInvalidState, [])
  -- "Delivery with ID ... does not exist" (thrown by _getDelivery)
  | _ => (.error .notFound, [])

/-- One record yielded by the ledger history iterator
ctx.stub.getHistoryForKey: transaction id (the version marker), the
ledger timestamp, the deletion flag, and the raw stored bytes of that
version (empty when the key was deleted at that version). -/
structure KeyModification where
  txId : String
  timestampStr : String
  isDelete : Bool
  value : String
deriving Repr, DecidableEq

/-- The Value field of one replayed history record: null when the key
held no bytes at that version, the decoded value when JSON.parse
succeeds, and the raw bytes when decoding fails. The decoded type is
abstract, as JSON.parse of the external runtime is. -/
inductive HistValue (α : Type) where
  | nullValue : HistValue α
  | parsed (a : α) : HistValue α
  | raw (sv : String) : HistValue α
deriving Repr, DecidableEq

/-- One element of the JSON array GetFertilizerHistory returns. -/
structure HistoryRecord (α : Type) where
  txId : String
  timestampStr : String
  isDelete : Bool
  value : HistValue α
deriving Repr, DecidableEq

/-- The record the loop body of GetFertilizerHistory builds from one
yielded modification. -/
def historyRecordOf {α : Type} (parse : String → Option α)
    (m : KeyModification) : HistoryRecord α :=
  { txId := m.txId
    timestampStr := m.timestampStr
    isDelete := m.isDelete
    value :=
      if m.value.length > 0 then
        match parse m.value with
        | some a => .parsed a
        | none => .raw m.value
      else .nullValue }

/-- While-loop of GetFertilizerHistory of the two-hop contract variant,
walking the history iterator until done. -/
def historyLoop {α : Type} (parse : String → Option α) :
    List KeyModification → List (HistoryRecord α)
  | [] => []
  | m :: rest => historyRecordOf parse m :: historyLoop parse rest

/-- GetFertilizerHistory of the two-hop contract variant: existence
check on the committed state, then a replay of the versioned-history
iterator of the key. The iterator contents are supplied by the external
ledger as the function histOf, oldest version first, and JSON.parse of
the runtime is the abstract function parse. -/
def GetFertilizerHistory {α : Type} (s : WorldState)
    (histOf : String → List KeyModification) (parse : String → Option α)
    (fertilizerId : String) : Except CCErr (List (HistoryRecord α)) :=
  -- "The fertilizer ... does not exist"
  if (getState s fertilizerId).isSome then
    .ok (historyLoop parse (histOf fertilizerId))
  else .error .notFound

/-- Empty ledger fixture for the concrete theorems below. -/
def sEmpty : WorldState := fun _ => none

/-- Fixture delivery D001 in INITIATED state with single member F001. -/
def dInitiated : Delivery :=
  { docType := "delivery"
    deliveryId := "D001"
    supplierOrg := "Org1MSP"
    supplierId := "u1"
    agrodealerOrg := some "Org3MSP"
    agrodealerId := some "u3"
    fertilizerIds := ["F001"]
    status := "INITIATED"
    createdAt := "t0"
    lastUpdated := "t0" }

/-- Fixture unit F001 registered to the supplier; also the exact record
a register call on the empty ledger creates. -/
def fRegistered : Fertilizer :=
  { docType := "fertilizer"
    fertilizerId := "F001"
    productType := "UREA"
    quantity := 50
    currentOwnerOrg := "Org1MSP"
    currentOwnerId := "u1"
    deliveryId := some "D001"
    status := "REGISTERED"
    history := [{ timestamp := "t0", actorOrg := "Org1MSP", actorId := "u1",
                  action := "REGISTERED_AND_INITIATED_DELIVERY",
                  newOwnerOrg := some "Org1MSP", newOwnerId := some "u1" }] }

/-- Fixture unit F001 marked IN_DELIVERY, still owned by the supplier. -/
def fInDelivery : Fertilizer := { fRegistered with status := "IN_DELIVERY" }

/-- Fixture delivery D001 handed off to transporter u2. -/
def dInTransit : Delivery :=
  { dInitiated with
    status := "IN_TRANSIT_TO_TRANSPORTER"
    currentTransporterOrg := some "Org2MSP"
    currentTransporterId := some "u2" }

/-- Ledger holding only the INITIATED delivery D001. -/
def sDeliveryOnly : WorldState :=
  fun k => if k = "D001" then some (.deliv dInitiated) else none

/-- Ledger holding the INITIATED delivery D001 and its member F001. -/
def sInitiated : WorldState :=
  fun k => if k = "D001" then some (.deliv dInitiated)
           else if k = "F001" then some (.fert fRegistered) else none

/-- Ledger holding the delivery D001 in transit to the transporter and
its member F001 marked IN_DELIVERY. -/
def sInTransit : WorldState :=
  fun k => if k = "D001" then some (.deliv dInTransit)
           else if k = "F001" then some (.fert fInDelivery) else none

/-- Boolean test that a call result is the InvalidState failure. -/
def isInvalidStateResult : Except CCErr Unit × WriteSet → Bool
  | (.error .invalidState, _) => true
  | _ => false

/-- Fixture JSON value with fields inserted out of order at two
depths. -/
def vPermA : JValue :=
  .obj [("b", .obj [("d", .num 1), ("c", .str "x")]), ("a", .num 3)]

/-- The same logical value as vPermA with both field lists permuted
into the opposite insertion order. -/
def vPermB : JValue :=
  .obj [("a", .num 3), ("b", .obj [("c", .str "x"), ("d", .num 1)])]

/-- Fixture history iterator contents for key F001: a decodable
version, a version that does not decode, and a deleted version. -/
def histEx : String → List KeyModification := fun k =>
  if k = "F001" then
    [{ txId := "tx1", timestampStr := "t0", isDelete := false, value := "7" },
     { txId := "tx2", timestampStr := "t1", isDelete := false, value := "oops" },
     { txId := "tx3", timestampStr := "t2", isDelete := true, value := "" }]
  else []

/-- Fixture decoder accepting only the byte string 7. -/
def parseEx : String → Option Nat := fun v => if v = "7" then some 7 else none

/-- Keys of a committed state are faithful: a stored fertilizer carries
the key it is stored under as its fertilizerId. The contract maintains
this because _putFertilizer always writes a unit under its own id. -/
def FertKeysFaithful (s : WorldState) (ids : List String) : Prop :=
  ∀ fid ∈ ids, ∀ f : Fertilizer, getState s fid = some (.fert f) → f.fertilizerId = fid

theorem getState_putState_self (s : WorldState) (k : String) (v : Entity) :
    getState (putState s k v) k = some v := by
  simp [getState, putState]

theorem getState_putState_ne (s : WorldState) {k k' : String} (v : Entity)
    (h : k' ≠ k) : getState (putState s k v) k' = getState s k' := by
  simp [getState, putState, h]

theorem applyWrites_nil (s : WorldState) : applyWrites s [] = s := rfl

theorem applyWrites_cons (s : WorldState) (kv : String × Entity) (ws : WriteSet) :
    applyWrites s (kv :: ws) = applyWrites (putState s kv.1 kv.2) ws := rfl

theorem applyWrites_append (s : WorldState) (ws₁ ws₂ : WriteSet) :
    applyWrites s (ws₁ ++ ws₂) = applyWrites (applyWrites s ws₁) ws₂ := by
  simp [applyWrites, List.foldl_append]

theorem getState_applyWrites_not_mem (s : WorldState) (ws : WriteSet) (k : String)
    (h : k ∉ ws.map Prod.fst) : getState (applyWrites s ws) k = getState s k := by
  induction ws generalizing s with
  | nil => rfl
  | cons kv rest ih =>
    simp only [List.map_cons, List.mem_cons] at h
    push_neg at h
    rw [applyWrites_cons, ih _ h.2, getState_putState_ne _ _ h.1]

theorem getState_applyWrites_mem (s : WorldState) (ws : WriteSet) (k : String)
    (v : Entity) (hnd : (ws.map Prod.fst).Nodup) (hmem : (k, v) ∈ ws) :
    getState (applyWrites s ws) k = some v := by
  induction ws generalizing s with
  | nil => cases hmem
  | cons kv rest ih =>
    simp only [List.map_cons, List.nodup_cons] at hnd
    rcases List.mem_cons.mp hmem with h | h
    · subst h
      rw [applyWrites_cons, getState_applyWrites_not_mem _ _ _ hnd.1,
        getState_putState_self]
    · rw [applyWrites_cons]
      exact ih _ hnd.2 h

/-- Success analysis of the TransferDelivery unit loop: the issued
writes cover exactly the listed ids, and every listed unit existed, was
owned by the transferring party, and received exactly the transferred
update. -/
theorem transferUnits_ok_spec (s : WorldState)
    (co ci ts act no ni : String) :
    ∀ ids : List String, FertKeysFaithful s ids →
      (transferUnits s co ci ts act no ni ids).1 = .ok () →
      (transferUnits s co ci ts act no ni ids).2.map Prod.fst = ids ∧
      ∀ fid ∈ ids, ∃ f : Fertilizer, getState s fid = some (.fert f) ∧
        f.currentOwnerOrg = co ∧
        (fid, Entity.fert { transferredFert co ci ts act no ni f with
          docType := "fertilizer" }) ∈ (transferUnits s co ci ts act no ni ids).2 := by
  intro ids
  induction ids with
  | nil => intro _ _; exact ⟨rfl, by simp⟩
  | cons fid rest ih =>
    intro hwk hok
    have hwk' : FertKeysFaithful s rest := fun x hx => hwk x (List.mem_cons_of_mem _ hx)
    cases hg : getState s fid with
    | none => simp [transferUnits, hg] at hok
    | some e =>
      cases e with
      | deliv d => simp [transferUnits, hg] at hok
      | fert f =>
        by_cases ho : f.currentOwnerOrg = co
        · have hkey : f.fertilizerId = fid := hwk fid (List.mem_cons_self ..) f hg
          have hstep : transferUnits s co ci ts act no ni (fid :: rest) =
              ((transferUnits s co ci ts act no ni rest).1,
               _putFertilizer (transferredFert co ci ts act no ni f) ::
                 (transferUnits s co ci ts act no ni rest).2) := by
            simp [transferUnits, hg, ho]
          have hok' : (transferUnits s co ci ts act no ni rest).1 = .ok () := by
            rw [hstep] at hok; exact hok
          obtain ⟨hkeys, hall⟩ := ih hwk' hok'
          constructor
          · rw [hstep]
            simp [_putFertilizer, transferredFert, hkey, hkeys]
          · intro x hx
            rcases List.mem_cons.mp hx with h | h
            · subst h
              refine ⟨f, hg, ho, ?_⟩
              rw [hstep, ← hkey]
              exact List.mem_cons_self _ _
            · obtain ⟨g, hgg, hgo, hgm⟩ := hall x h
              refine ⟨g, hgg, hgo, ?_⟩
              rw [hstep]
              exact List.mem_cons_of_mem _ hgm
        · simp [transferUnits, hg, ho] at hok

/-- Failure analysis of the TransferDelivery unit loop: the loop only
throws the per-unit ownership error or the missing-unit error. -/
theorem transferUnits_err_kinds (s : WorldState) (co ci ts act no ni : String) :
    ∀ (ids : List String) (e : CCErr),
      (transferUnits s co ci ts act no ni ids).1 = .error e →
      e = .ownershipMismatch ∨ e = .notFound := by
  intro ids
  induction ids with
  | nil => intro e he; simp [transferUnits] at he
  | cons fid rest ih =>
    intro e he
    cases hg : getState s fid with
    | none =>
      have : CCErr.notFound = e := by simpa [transferUnits, hg] using he
      exact Or.inr this.symm
    | some ent =>
      cases ent with
      | deliv d =>
        have : CCErr.notFound = e := by simpa [transferUnits, hg] using he
        exact Or.inr this.symm
      | fert f =>
        by_cases ho : f.currentOwnerOrg = co
        · have : (transferUnits s co ci ts act no ni rest).1 = .error e := by
            simpa [transferUnits, hg, ho] using he
          exact ih e this
        · have : CCErr.ownershipMismatch = e := by
            simpa [transferUnits, hg, ho] using he
          exact Or.inl this.symm

/-- Success analysis of the AcceptDelivery unit loop: the issued writes
cover exactly the listed ids, and every listed unit existed, was owned
by the expected previous owner, was IN_DELIVERY, and received exactly
the accepted update. -/
theorem acceptUnits_ok_spec (s : WorldState) (ao ai ts : String)
    (po pi : Option String) (act : String) :
    ∀ ids : List String, FertKeysFaithful s ids →
      (acceptUnits s ao ai ts po pi act ids).1 = .ok () →
      (acceptUnits s ao ai ts po pi act ids).2.map Prod.fst = ids ∧
      ∀ fid ∈ ids, ∃ f : Fertilizer, getState s fid = some (.fert f) ∧
        some f.currentOwnerOrg = po ∧ f.status = "IN_DELIVERY" ∧
        (fid, Entity.fert { acceptedFert ao ai ts po pi act f with
          docType := "fertilizer" }) ∈ (acceptUnits s ao ai ts po pi act ids).2 := by
  intro ids
  induction ids with
  | nil => intro _ _; exact ⟨rfl, by simp⟩
  | cons fid rest ih =>
    intro hwk hok
    have hwk' : FertKeysFaithful s rest := fun x hx => hwk x (List.mem_cons_of_mem _ hx)
    cases hg : getState s fid with
    | none => simp [acceptUnits, hg] at hok
    | some e =>
      cases e with
      | deliv d => simp [acceptUnits, hg] at hok
      | fert f =>
        by_cases ho : some f.currentOwnerOrg = po
        · by_cases hst : f.status = "IN_DELIVERY"
          · have hkey : f.fertilizerId = fid := hwk fid (List.mem_cons_self ..) f hg
            have hstep : acceptUnits s ao ai ts po pi act (fid :: rest) =
                ((acceptUnits s ao ai ts po pi act rest).1,
                 _putFertilizer (acceptedFert ao ai ts po pi act f) ::
                   (acceptUnits s ao ai ts po pi act rest).2) := by
              simp [acceptUnits, hg, ho, hst]
            have hok' : (acceptUnits s ao ai ts po pi act rest).1 = .ok () := by
              rw [hstep] at hok; exact hok
            obtain ⟨hkeys, hall⟩ := ih hwk' hok'
            constructor
            · rw [hstep]
              simp [_putFertilizer, acceptedFert, hkey, hkeys]
            · intro x hx
              rcases List.mem_cons.mp hx with h | h
              · subst h
                refine ⟨f, hg, ho, hst, ?_⟩
                rw [hstep, ← hkey]
                exact List.mem_cons_self _ _
              · obtain ⟨g, hgg, hgo, hgs, hgm⟩ := hall x h
                refine ⟨g, hgg, hgo, hgs, ?_⟩
                rw [hstep]
                exact List.mem_cons_of_mem _ hgm
          · simp [acceptUnits, hg, ho, hst] at hok
        · simp [acceptUnits, hg, ho] at hok

/-- Failure analysis of the AcceptDelivery unit loop: a unit that exists
but is not owned by the expected previous owner, or is not IN_DELIVERY,
makes the loop throw the ownership error or the state error. -/
theorem acceptUnits_err_of_violation (s : WorldState) (ao ai ts : String)
    (po pi : Option String) (act : String) :
    ∀ ids : List String,
      (∀ fid ∈ ids, ∃ f : Fertilizer, getState s fid = some (.fert f)) →
      (∃ fid ∈ ids, ∃ f : Fertilizer, getState s fid = some (.fert f) ∧
        (some f.currentOwnerOrg ≠ po ∨ f.status ≠ "IN_DELIVERY")) →
      ∃ e : CCErr, (acceptUnits s ao ai ts po pi act ids).1 = .error e ∧
        (e = .ownershipMismatch ∨ e = .invalidState) := by
  intro ids
  induction ids with
  | nil => intro _ hbad; obtain ⟨fid, hmem, _⟩ := hbad; cases hmem
  | cons fid rest ih =>
    intro hex hbad
    obtain ⟨f, hg⟩ := hex fid (List.mem_cons_self ..)
    by_cases ho : some f.currentOwnerOrg = po
    · by_cases hst : f.status = "IN_DELIVERY"
      · have hstep : acceptUnits s ao ai ts po pi act (fid :: rest) =
            ((acceptUnits s ao ai ts po pi act rest).1,
             _putFertilizer (acceptedFert ao ai ts po pi act f) ::
               (acceptUnits s ao ai ts po pi act rest).2) := by
          simp [acceptUnits, hg, ho, hst]
        have hex' : ∀ x ∈ rest, ∃ g : Fertilizer, getState s x = some (.fert g) :=
          fun x hx => hex x (List.mem_cons_of_mem _ hx)
        have hbad' : ∃ x ∈ rest, ∃ g : Fertilizer, getState s x = some (.fert g) ∧
            (some g.currentOwnerOrg ≠ po ∨ g.status ≠ "IN_DELIVERY") := by
          obtain ⟨x, hxmem, g, hxg, hv⟩ := hbad
          rcases List.mem_cons.mp hxmem with h | h
          · subst h
            rw [hg] at hxg
            obtain rfl : f = g := by
              injection hxg with h1; injection h1
            rcases hv with hv | hv
            · exact absurd ho hv
            · exact absurd hst hv
          · exact ⟨x, h, g, hxg, hv⟩
        obtain ⟨e, he, hk⟩ := ih hex' hbad'
        exact ⟨e, by rw [hstep]; exact he, hk⟩
      · refine ⟨.invalidState, ?_, Or.inr rfl⟩
        simp [acceptUnits, hg, ho, hst]
    · refine ⟨.ownershipMismatch, ?_, Or.inl rfl⟩
      simp [acceptUnits, hg, ho]

/-- A duplicate-free member list that is covered by a scanned list of
the same length has the same id set as the scanned list. This is the
converse direction of the content check of AcceptDelivery. -/
theorem content_check_set_eq (members scanned : List String)
    (hnd : members.Nodup) (hlen : members.length = scanned.length)
    (hsub : ∀ id ∈ members, id ∈ scanned) :
    members.toFinset = scanned.toFinset := by
  apply Finset.eq_of_subset_of_card_le
  · intro x hx
    rw [List.mem_toFinset] at hx ⊢
    exact hsub x hx
  · calc scanned.toFinset.card ≤ scanned.length := scanned.toFinset_card_le
      _ = members.length := hlen.symm
      _ = members.toFinset.card := (List.toFinset_card_of_nodup hnd).symm

/-- Failure analysis of the AcceptDelivery unit loop: the loop only
throws the ownership error, the state error, or the missing-unit
error. -/
theorem acceptUnits_err_kinds (s : WorldState) (ao ai ts : String)
    (po pi : Option String) (act : String) :
    ∀ (ids : List String) (e : CCErr),
      (acceptUnits s ao ai ts po pi act ids).1 = .error e →
      e = .ownershipMismatch ∨ e = .invalidState ∨ e = .notFound := by
  intro ids
  induction ids with
  | nil => intro e he; simp [acceptUnits] at he
  | cons fid rest ih =>
    intro e he
    cases hg : getState s fid with
    | none =>
      have : CCErr.notFound = e := by simpa [acceptUnits, hg] using he
      exact Or.inr (Or.inr this.symm)
    | some ent =>
      cases ent with
      | deliv d =>
        have : CCErr.notFound = e := by simpa [acceptUnits, hg] using he
        exact Or.inr (Or.inr this.symm)
      | fert f =>
        by_cases ho : some f.currentOwnerOrg = po
        · by_cases hst : f.status = "IN_DELIVERY"
          · have : (acceptUnits s ao ai ts po pi act rest).1 = .error e := by
              simpa [acceptUnits, hg, ho, hst] using he
            exact ih e this
          · have : CCErr.invalidState = e := by
              simpa [acceptUnits, hg, ho, hst] using he
            exact Or.inr (Or.inl this.symm)
        · have : CCErr.ownershipMismatch = e := by
            simpa [acceptUnits, hg, ho] using he
          exact Or.inl this.symm

/-- On a successful TransferDelivery tail, the final delivery write wins
the lookup of the delivery key and carries the new status. -/
theorem transferFinish_ok_delivery (s : WorldState) (co ci ts act ns no ni : String)
    (dd : Delivery)
    (hok : (transferFinish s co ci ts act ns no ni dd).1 = .ok ()) :
    getState (applyWrites s (transferFinish s co ci ts act ns no ni dd).2) dd.deliveryId =
      some (.deliv { dd with docType := "delivery", status := ns, lastUpdated := ts }) := by
  simp only [transferFinish] at hok ⊢
  cases hr : (transferUnits s co ci ts act no ni dd.fertilizerIds).1 with
  | error e => rw [hr] at hok; simp at hok
  | ok u =>
    cases u
    dsimp only
    simp only [applyWrites_append]
    simp [applyWrites, _putDelivery, getState, putState]

/-- On a successful TransferDelivery tail, every member unit existed,
was owned by the transferring party, and its key now holds exactly the
transferred update. -/
theorem transferFinish_ok_units (s : WorldState) (co ci ts act ns no ni : String)
    (dd : Delivery)
    (hwk : FertKeysFaithful s dd.fertilizerIds)
    (hnd : dd.fertilizerIds.Nodup)
    (hnin : dd.deliveryId ∉ dd.fertilizerIds)
    (hok : (transferFinish s co ci ts act ns no ni dd).1 = .ok ()) :
    ∀ fid ∈ dd.fertilizerIds, ∃ f : Fertilizer,
      getState s fid = some (.fert f) ∧ f.currentOwnerOrg = co ∧
      getState (applyWrites s (transferFinish s co ci ts act ns no ni dd).2) fid =
        some (.fert { transferredFert co ci ts act no ni f with docType := "fertilizer" }) := by
  simp only [transferFinish] at hok ⊢
  cases hr : (transferUnits s co ci ts act no ni dd.fertilizerIds).1 with
  | error e => rw [hr] at hok; simp at hok
  | ok u =>
    cases u
    dsimp only
    have hspec := transferUnits_ok_spec s co ci ts act no ni dd.fertilizerIds hwk hr
    obtain ⟨hkeys, hall⟩ := hspec
    intro fid hfid
    obtain ⟨f, hf, hfo, hfm⟩ := hall fid hfid
    refine ⟨f, hf, hfo, ?_⟩
    simp only [applyWrites_append]
    have hne : fid ≠ (_putDelivery { dd with status := ns, lastUpdated := ts }).1 := by
      simp only [_putDelivery]
      intro h
      exact hnin (by rw [← h]; exact hfid)
    calc getState (applyWrites (applyWrites s
            (transferUnits s co ci ts act no ni dd.fertilizerIds).2)
            [_putDelivery { dd with status := ns, lastUpdated := ts }]) fid
        = getState (applyWrites s
            (transferUnits s co ci ts act no ni dd.fertilizerIds).2) fid := by
          exact getState_putState_ne _ _ hne
      _ = some (.fert { transferredFert co ci ts act no ni f with
            docType := "fertilizer" }) := by
          exact getState_applyWrites_mem _ _ _ _ (by rw [hkeys]; exact hnd) hfm

/-- On a successful AcceptDelivery tail, the final delivery write wins
the lookup of the delivery key and carries the new status. -/
theorem acceptFinish_ok_delivery (s : WorldState) (ao ai ts : String)
    (scanned : List String) (dd : Delivery) (po pi : Option String)
    (ns act : String)
    (hok : (acceptFinish s ao ai ts scanned dd po pi ns act).1 = .ok ()) :
    getState (applyWrites s (acceptFinish s ao ai ts scanned dd po pi ns act).2)
      dd.deliveryId =
      some (.deliv { dd with docType := "delivery", status := ns, lastUpdated := ts }) := by
  by_cases hc : dd.fertilizerIds.length ≠ scanned.length ∨
      ¬ (∀ id ∈ dd.fertilizerIds, id ∈ scanned)
  · exact absurd hok (by unfold acceptFinish; rw [if_pos hc]; simp)
  · unfold acceptFinish at hok ⊢
    rw [if_neg hc] at hok ⊢
    dsimp only at hok ⊢
    cases hr : (acceptUnits s ao ai ts po pi act dd.fertilizerIds).1 with
    | error e => rw [hr] at hok; simp at hok
    | ok u =>
      cases u
      dsimp only
      simp only [applyWrites_append]
      simp [applyWrites, _putDelivery, getState, putState]

/-- On a successful AcceptDelivery tail, every member unit existed, was
owned by the expected previous owner, was IN_DELIVERY, and its key now
holds exactly the accepted update. -/
theorem acceptFinish_ok_units (s : WorldState) (ao ai ts : String)
    (scanned : List String) (dd : Delivery) (po pi : Option String)
    (ns act : String)
    (hwk : FertKeysFaithful s dd.fertilizerIds)
    (hnd : dd.fertilizerIds.Nodup)
    (hnin : dd.deliveryId ∉ dd.fertilizerIds)
    (hok : (acceptFinish s ao ai ts scanned dd po pi ns act).1 = .ok ()) :
    ∀ fid ∈ dd.fertilizerIds, ∃ f : Fertilizer,
      getState s fid = some (.fert f) ∧
      some f.currentOwnerOrg = po ∧ f.status = "IN_DELIVERY" ∧
      getState (applyWrites s (acceptFinish s ao ai ts scanned dd po pi ns act).2) fid =
        some (.fert { acceptedFert ao ai ts po pi act f with docType := "fertilizer" }) := by
  by_cases hc : dd.fertilizerIds.length ≠ scanned.length ∨
      ¬ (∀ id ∈ dd.fertilizerIds, id ∈ scanned)
  · exact absurd hok (by unfold acceptFinish; rw [if_pos hc]; simp)
  · unfold acceptFinish at hok ⊢
    rw [if_neg hc] at hok ⊢
    dsimp only at hok ⊢
    cases hr : (acceptUnits s ao ai ts po pi act dd.fertilizerIds).1 with
    | error e => rw [hr] at hok; simp at hok
    | ok u =>
      cases u
      dsimp only
      have hspec := acceptUnits_ok_spec s ao ai ts po pi act dd.fertilizerIds hwk hr
      obtain ⟨hkeys, hall⟩ := hspec
      intro fid hfid
      obtain ⟨f, hf, hfo, hfs, hfm⟩ := hall fid hfid
      refine ⟨f, hf, hfo, hfs, ?_⟩
      simp only [applyWrites_append]
      have hne : fid ≠ (_putDelivery { dd with status := ns, lastUpdated := ts }).1 := by
        simp only [_putDelivery]
        intro h
        exact hnin (by rw [← h]; exact hfid)
      calc getState (applyWrites (applyWrites s
              (acceptUnits s ao ai ts po pi act dd.fertilizerIds).2)
              [_putDelivery { dd with status := ns, lastUpdated := ts }]) fid
          = getState (applyWrites s
              (acceptUnits s ao ai ts po pi act dd.fertilizerIds).2) fid := by
            exact getState_putState_ne _ _ hne
        _ = some (.fert { acceptedFert ao ai ts po pi act f with
              docType := "fertilizer" }) := by
            exact getState_applyWrites_mem _ _ _ _ (by rw [hkeys]; exact hnd) hfm

/-- Failure analysis of the TransferDelivery tail: an error surfacing
from the tail is an error of the unit loop. -/
theorem transferFinish_err (s : WorldState) (co ci ts act ns no ni : String)
    (dd : Delivery) (e : CCErr)
    (he : (transferFinish s co ci ts act ns no ni dd).1 = .error e) :
    (transferUnits s co ci ts act no ni dd.fertilizerIds).1 = .error e := by
  simp only [transferFinish] at he
  cases hr : (transferUnits s co ci ts act no ni dd.fertilizerIds).1 with
  | error e' =>
    rw [hr] at he
    simp at he
    rw [he]
  | ok u =>
    cases u
    rw [hr] at he
    simp at he

/-- Failure analysis of the AcceptDelivery tail: an error surfacing from
the tail is either the content mismatch, issued with no writes, or an
error of the unit loop. -/
theorem acceptFinish_err_cases (s : WorldState) (ao ai ts : String)
    (scanned : List String) (dd : Delivery) (po pi : Option String)
    (ns act : String) (e : CCErr)
    (he : (acceptFinish s ao ai ts scanned dd po pi ns act).1 = .error e) :
    (e = .contentMismatch ∧
      (acceptFinish s ao ai ts scanned dd po pi ns act).2 = []) ∨
    (acceptUnits s ao ai ts po pi act dd.fertilizerIds).1 = .error e := by
  by_cases hc : dd.fertilizerIds.length ≠ scanned.length ∨
      ¬ (∀ id ∈ dd.fertilizerIds, id ∈ scanned)
  · left
    constructor
    · have : (acceptFinish s ao ai ts scanned dd po pi ns act).1 =
          .error .contentMismatch := by
        unfold acceptFinish; rw [if_pos hc]
      rw [this] at he
      injection he with h
      exact h.symm
    · unfold acceptFinish; rw [if_pos hc]
  · right
    unfold acceptFinish at he
    rw [if_neg hc] at he
    dsimp only at he
    cases hr : (acceptUnits s ao ai ts po pi act dd.fertilizerIds).1 with
    | error e' =>
      rw [hr] at he
      simp at he
      rw [he]
    | ok u =>
      cases u
      rw [hr] at he
      simp at he

/-- C5 (amended): a valid register call by the supplier with fresh unit
and delivery ids succeeds and creates the unit with status REGISTERED,
owner equal to the calling org and identity, and a history of exactly
one event whose new owner is the caller; the action recorded on this
single event is REGISTERED_AND_INITIATED_DELIVERY, not
INITIAL_REGISTRATION as the original claim states. -/
theorem register_creates_registered_unit (s : WorldState)
    (callerOrg callerId ts deliveryId fertilizerId productType : String)
    (quantity : Int) (agrodealerOrg agrodealerId : String)
    (hco : callerOrg = "Org1MSP")
    (hf : getState s fertilizerId = none)
    (hdl : getState s deliveryId = none)
    (hne : fertilizerId ≠ deliveryId) :
    (InitDeliveryWithFertilizer s callerOrg callerId ts deliveryId fertilizerId
        productType quantity agrodealerOrg agrodealerId).1 = .ok () ∧
    getState (applyWrites s (InitDeliveryWithFertilizer s callerOrg callerId ts
        deliveryId fertilizerId productType quantity agrodealerOrg agrodealerId).2)
      fertilizerId =
      some (.fert
        { docType := "fertilizer"
          fertilizerId := fertilizerId
          productType := productType
          quantity := quantity
          currentOwnerOrg := callerOrg
          currentOwnerId := callerId
          deliveryId := some deliveryId
          status := "REGISTERED"
          history := [{ timestamp := ts, actorOrg := callerOrg, actorId := callerId,
                        action := "REGISTERED_AND_INITIATED_DELIVERY",
                        previousOwnerOrg := none, previousOwnerId := none,
                        newOwnerOrg := some callerOrg, newOwnerId := some callerId }] }) := by
  have hf' : s fertilizerId = none := hf
  have hdl' : s deliveryId = none := hdl
  constructor
  · simp [InitDeliveryWithFertilizer, hco, hf', hdl', getState]
  · simp [InitDeliveryWithFertilizer, hco, hf', hdl', applyWrites, _putFertilizer,
      _putDelivery, getState, putState, hne]

/-- C5 counterexample: on the concrete valid register call on the empty
ledger, the single history event of the created unit carries the action
REGISTERED_AND_INITIATED_DELIVERY, which is not INITIAL_REGISTRATION. -/
theorem register_action_cex :
    (InitDeliveryWithFertilizer sEmpty "Org1MSP" "u1" "t0" "D001" "F001" "UREA" 50
      "Org3MSP" "u3").1 = .ok () ∧
    getState (applyWrites sEmpty (InitDeliveryWithFertilizer sEmpty "Org1MSP" "u1"
      "t0" "D001" "F001" "UREA" 50 "Org3MSP" "u3").2) "F001" =
      some (.fert fRegistered) ∧
    fRegistered.history.map HistoryEntry.action = ["REGISTERED_AND_INITIATED_DELIVERY"] ∧
    fRegistered.history.map HistoryEntry.action ≠ ["INITIAL_REGISTRATION"] := by
  refine ⟨rfl, by decide, by decide, by decide⟩

/-- C5 witness: the amended register theorem applied at the concrete
valid call on the empty ledger. -/
theorem register_creates_registered_unit_witness :
    (InitDeliveryWithFertilizer sEmpty "Org1MSP" "u1" "t0" "D001" "F001" "UREA" 50
        "Org3MSP" "u3").1 = .ok () ∧
    getState (applyWrites sEmpty (InitDeliveryWithFertilizer sEmpty "Org1MSP" "u1"
        "t0" "D001" "F001" "UREA" 50 "Org3MSP" "u3").2) "F001" =
      some (.fert
        { docType := "fertilizer"
          fertilizerId := "F001"
          productType := "UREA"
          quantity := 50
          currentOwnerOrg := "Org1MSP"
          currentOwnerId := "u1"
          deliveryId := some "D001"
          status := "REGISTERED"
          history := [{ timestamp := "t0", actorOrg := "Org1MSP", actorId := "u1",
                        action := "REGISTERED_AND_INITIATED_DELIVERY",
                        previousOwnerOrg := none, previousOwnerId := none,
                        newOwnerOrg := some "Org1MSP", newOwnerId := some "u1" }] }) :=
  register_creates_registered_unit sEmpty "Org1MSP" "u1" "t0" "D001" "F001" "UREA"
    50 "Org3MSP" "u3" rfl rfl rfl (by decide)

/-- C7 (amended): augment on an existing delivery that is not in
INITIATED status always fails and issues no write, but the error kind
depends on the caller: a caller outside Org1MSP, or one that is not the
initiating supplier of the delivery, fails the authorization checks
first (Unauthorized); only the initiating supplier reaches the status
check and fails with InvalidState. -/
theorem augment_non_initiated_spec (s : WorldState)
    (callerOrg callerId ts deliveryId fertilizerId productType : String)
    (quantity : Int) (d : Delivery)
    (hd : getState s deliveryId = some (.deliv d))
    (hst : d.status ≠ "INITIATED") :
    (AddFertilizerToDelivery s callerOrg callerId ts deliveryId fertilizerId
        productType quantity).2 = [] ∧
    (AddFertilizerToDelivery s callerOrg callerId ts deliveryId fertilizerId
        productType quantity).1 ≠ .ok () ∧
    (callerOrg ≠ "Org1MSP" →
      (AddFertilizerToDelivery s callerOrg callerId ts deliveryId fertilizerId
        productType quantity).1 = .error .unauthorized) ∧
    (callerOrg = "Org1MSP" → d.supplierOrg ≠ callerOrg →
      (AddFertilizerToDelivery s callerOrg callerId ts deliveryId fertilizerId
        productType quantity).1 = .error .unauthorized) ∧
    (callerOrg = "Org1MSP" → d.supplierOrg = callerOrg →
      (AddFertilizerToDelivery s callerOrg callerId ts deliveryId fertilizerId
        productType quantity).1 = .error .invalidState) := by
  by_cases hc : callerOrg = "Org1MSP"
  · subst hc
    by_cases hsup : d.supplierOrg = "Org1MSP"
    · have hstep : AddFertilizerToDelivery s "Org1MSP" callerId ts deliveryId
          fertilizerId productType quantity = (.error .invalidState, []) := by
        simp [AddFertilizerToDelivery, hd, hsup, hst]
      rw [hstep]
      exact ⟨rfl, by simp, fun h => absurd rfl h, fun _ h => absurd hsup h,
        fun _ _ => rfl⟩
    · have hstep : AddFertilizerToDelivery s "Org1MSP" callerId ts deliveryId
          fertilizerId productType quantity = (.error .unauthorized, []) := by
        simp [AddFertilizerToDelivery, hd, hsup]
      rw [hstep]
      exact ⟨rfl, by simp, fun h => absurd rfl h, fun _ _ => rfl,
        fun _ h => absurd h hsup⟩
  · have hstep : AddFertilizerToDelivery s callerOrg callerId ts deliveryId
        fertilizerId productType quantity = (.error .unauthorized, []) := by
      simp [AddFertilizerToDelivery, hc]
    rw [hstep]
    exact ⟨rfl, by simp, fun _ => rfl, fun h => absurd h hc, fun h => absurd h hc⟩

/-- C7 counterexample: on the concrete delivery D001 in transit (not
INITIATED), an augment call by Org2MSP fails with the Unauthorized
error, not with InvalidState as the original claim states for every
caller. -/
theorem augment_non_initiated_cex :
    (AddFertilizerToDelivery sInTransit "Org2MSP" "u2" "t1" "D001" "F002" "NPK"
      10).1 = .error .unauthorized ∧
    isInvalidStateResult (AddFertilizerToDelivery sInTransit "Org2MSP" "u2" "t1"
      "D001" "F002" "NPK" 10) = false := by
  refine ⟨rfl, by decide⟩

/-- C7 witness: the amended augment theorem applied at the concrete
delivery D001 in transit. -/
theorem augment_non_initiated_spec_witness :
    (AddFertilizerToDelivery sInTransit "Org1MSP" "u1" "t1" "D001" "F002" "NPK"
        10).2 = [] ∧
    (AddFertilizerToDelivery sInTransit "Org1MSP" "u1" "t1" "D001" "F002" "NPK"
        10).1 ≠ .ok () ∧
    (("Org1MSP" : String) ≠ "Org1MSP" →
      (AddFertilizerToDelivery sInTransit "Org1MSP" "u1" "t1" "D001" "F002" "NPK"
        10).1 = .error .unauthorized) ∧
    (("Org1MSP" : String) = "Org1MSP" → dInTransit.supplierOrg ≠ "Org1MSP" →
      (AddFertilizerToDelivery sInTransit "Org1MSP" "u1" "t1" "D001" "F002" "NPK"
        10).1 = .error .unauthorized) ∧
    (("Org1MSP" : String) = "Org1MSP" → dInTransit.supplierOrg = "Org1MSP" →
      (AddFertilizerToDelivery sInTransit "Org1MSP" "u1" "t1" "D001" "F002" "NPK"
        10).1 = .error .invalidState) :=
  augment_non_initiated_spec sInTransit "Org1MSP" "u1" "t1" "D001" "F002" "NPK"
    10 dInTransit (by decide) (by decide)

/-- C1 (amended): write-before-validation ordering per operation.
AddFertilizerToDelivery validates every precondition before any write,
so any failure leaves the issued write set empty. For the other three
operations only the delivery-level validations precede all writes:
InitDeliveryWithFertilizer issues its unit write before checking
delivery-id collision — a failing call has issued a write exactly when
the caller is authorized, the unit id is fresh and the delivery id
collides — and TransferDelivery / AcceptDelivery interleave the
per-unit ownership and state checks with the per-unit writes, though
every rejection other than a per-unit one (authorization, state, target
org, recipient, content) is raised before the first write. Note the
Fabric runtime discards the write set of a failed transaction, so the
committed ledger stays unchanged; the issue-order clause of the
original claim is what fails. -/
theorem atomicity_amended :
    (∀ (s : WorldState) (co ci ts did fid pt : String) (q : Int) (e : CCErr),
      (AddFertilizerToDelivery s co ci ts did fid pt q).1 = .error e →
      (AddFertilizerToDelivery s co ci ts did fid pt q).2 = []) ∧
    (∀ (s : WorldState) (co ci ts did fid pt : String) (q : Int)
        (ao ai : String) (e : CCErr),
      (InitDeliveryWithFertilizer s co ci ts did fid pt q ao ai).1 = .error e →
      ((InitDeliveryWithFertilizer s co ci ts did fid pt q ao ai).2 = [] ↔
        ¬(co = "Org1MSP" ∧ getState s fid = none ∧ (getState s did).isSome))) ∧
    (∀ (s : WorldState) (co ci ts did no ni : String) (e : CCErr),
      (TransferDelivery s co ci ts did no ni).1 = .error e →
      e ≠ .ownershipMismatch → e ≠ .notFound →
      (TransferDelivery s co ci ts did no ni).2 = []) ∧
    (∀ (s : WorldState) (ao ai ts did : String) (scanned : List String) (e : CCErr),
      (AcceptDelivery s ao ai ts did scanned).1 = .error e →
      e ≠ .ownershipMismatch → e ≠ .invalidState → e ≠ .notFound →
      (AcceptDelivery s ao ai ts did scanned).2 = []) := by
  refine ⟨?_, ?_, ?_, ?_⟩
  · intro s co ci ts did fid pt q e he
    by_cases hc : co = "Org1MSP"
    · subst hc
      cases hg : getState s did with
      | none => simp [AddFertilizerToDelivery, hg]
      | some ent =>
        cases ent with
        | fert f => simp [AddFertilizerToDelivery, hg]
        | deliv d =>
          by_cases hsup : d.supplierOrg = "Org1MSP"
          · by_cases hst : d.status = "INITIATED"
            · by_cases hex : (getState s fid).isSome
              · simp [AddFertilizerToDelivery, hg, hsup, hst, hex]
              · have hok : (AddFertilizerToDelivery s "Org1MSP" ci ts did fid pt
                    q).1 = .ok () := by
                  simp [AddFertilizerToDelivery, hg, hsup, hst, hex]
                rw [hok] at he
                simp at he
            · simp [AddFertilizerToDelivery, hg, hsup, hst]
          · simp [AddFertilizerToDelivery, hg, hsup]
    · simp [AddFertilizerToDelivery, hc]
  · intro s co ci ts did fid pt q ao ai e he
    by_cases hc : co = "Org1MSP"
    · subst hc
      cases hfg : getState s fid with
      | some v => simp [InitDeliveryWithFertilizer, hfg]
      | none =>
        cases hdg : getState s did with
        | some w => simp [InitDeliveryWithFertilizer, hfg, hdg]
        | none =>
          have hok : (InitDeliveryWithFertilizer s "Org1MSP" ci ts did fid pt q
              ao ai).1 = .ok () := by
            simp [InitDeliveryWithFertilizer, hfg, hdg]
          rw [hok] at he
          simp at he
    · have hstep : InitDeliveryWithFertilizer s co ci ts did fid pt q ao ai =
          (.error .unauthorized, []) := by
        simp [InitDeliveryWithFertilizer, hc]
      rw [hstep]
      exact iff_of_true rfl (fun hcon => hc hcon.1)
  · intro s co ci ts did no ni e he hown hnf
    cases hg : getState s did with
    | none => simp [TransferDelivery, hg]
    | some ent =>
      cases ent with
      | fert f => simp [TransferDelivery, hg]
      | deliv d =>
        by_cases h1 : co = "Org1MSP" ∧ d.status = "INITIATED"
        · by_cases hno : no = "Org2MSP"
          · exfalso
            have hTD : TransferDelivery s co ci ts did no ni =
                transferFinish s co ci ts "TRANSFER_INITIATED_TO_TRANSPORTER"
                  "IN_TRANSIT_TO_TRANSPORTER" no ni
                  { d with currentTransporterOrg := some no,
                           currentTransporterId := some ni } := by
              simp [TransferDelivery, hg, h1.1, h1.2, hno]
            rw [hTD] at he
            have hloop := transferFinish_err _ _ _ _ _ _ _ _ _ _ he
            rcases transferUnits_err_kinds _ _ _ _ _ _ _ _ _ hloop with h | h
            · exact hown h
            · exact hnf h
          · simp [TransferDelivery, hg, h1.1, h1.2, hno]
        · by_cases h2 : co = "Org2MSP" ∧ d.status = "TRANSFERRED_TO_TRANSPORTER"
          · by_cases hno : no = "Org3MSP"
            · exfalso
              have hTD : TransferDelivery s co ci ts did no ni =
                  transferFinish s co ci ts "TRANSFER_INITIATED_TO_AGRODEALER"
                    "IN_TRANSIT_TO_AGRODEALER" no ni d := by
                simp [TransferDelivery, hg, h1, h2.1, h2.2, hno]
              rw [hTD] at he
              have hloop := transferFinish_err _ _ _ _ _ _ _ _ _ _ he
              rcases transferUnits_err_kinds _ _ _ _ _ _ _ _ _ hloop with h | h
              · exact hown h
              · exact hnf h
            · simp [TransferDelivery, hg, h1, h2.1, h2.2, hno]
          · simp [TransferDelivery, hg, h1, h2]
  · intro s ao ai ts did scanned e he h1 h2 h3
    cases hg : getState s did with
    | none => simp [AcceptDelivery, hg]
    | some ent =>
      cases ent with
      | fert f => simp [AcceptDelivery, hg]
      | deliv d =>
        by_cases hb1 : d.status = "IN_TRANSIT_TO_TRANSPORTER" ∧ ao = "Org2MSP"
        · by_cases hrec : d.currentTransporterId = some ai
          · have hAD : AcceptDelivery s ao ai ts did scanned =
                acceptFinish s ao ai ts scanned
                  { d with currentTransporterOrg := some ao,
                           currentTransporterId := some ai }
                  (some d.supplierOrg) (some d.supplierId)
                  "TRANSFERRED_TO_TRANSPORTER" "RECEIVED_BY_TRANSPORTER" := by
              simp [AcceptDelivery, hg, hb1.1, hb1.2, hrec]
            rw [hAD] at he ⊢
            rcases acceptFinish_err_cases _ _ _ _ _ _ _ _ _ _ _ he with ⟨_, hw⟩ | hloop
            · exact hw
            · exfalso
              rcases acceptUnits_err_kinds _ _ _ _ _ _ _ _ _ hloop with h | h | h
              · exact h1 h
              · exact h2 h
              · exact h3 h
          · simp [AcceptDelivery, hg, hb1.1, hb1.2, hrec]
        · by_cases hb2 : d.status = "IN_TRANSIT_TO_AGRODEALER" ∧ ao = "Org3MSP"
          · by_cases hrec : d.agrodealerId = some ai
            · have hAD : AcceptDelivery s ao ai ts did scanned =
                  acceptFinish s ao ai ts scanned
                    { d with agrodealerOrg := some ao, agrodealerId := some ai }
                    d.currentTransporterOrg d.currentTransporterId
                    "COMPLETED" "RECEIVED_BY_AGRODEALER" := by
                simp [AcceptDelivery, hg, hb1, hb2.1, hb2.2, hrec]
              rw [hAD] at he ⊢
              rcases acceptFinish_err_cases _ _ _ _ _ _ _ _ _ _ _ he with ⟨_, hw⟩ | hloop
              · exact hw
              · exfalso
                rcases acceptUnits_err_kinds _ _ _ _ _ _ _ _ _ hloop with h | h | h
                · exact h1 h
                · exact h2 h
                · exact h3 h
            · simp [AcceptDelivery, hg, hb1, hb2.1, hb2.2, hrec]
          · simp [AcceptDelivery, hg, hb1, hb2]

/-- C1 counterexample: on the concrete register call against a ledger
already holding delivery D001, the call fails with the delivery
collision error, yet the putState for unit F001 has already been
issued: the issued write set is nonempty and the state it denotes
differs from the state before the call at key F001. -/
theorem atomicity_cex :
    (InitDeliveryWithFertilizer sDeliveryOnly "Org1MSP" "u1" "t0" "D001" "F001"
      "UREA" 50 "Org3MSP" "u3").1 = .error .alreadyExists ∧
    (InitDeliveryWithFertilizer sDeliveryOnly "Org1MSP" "u1" "t0" "D001" "F001"
      "UREA" 50 "Org3MSP" "u3").2 ≠ [] ∧
    getState (applyWrites sDeliveryOnly (InitDeliveryWithFertilizer sDeliveryOnly
      "Org1MSP" "u1" "t0" "D001" "F001" "UREA" 50 "Org3MSP" "u3").2) "F001" ≠
      getState sDeliveryOnly "F001" := by
  refine ⟨rfl, by decide, by decide⟩

/-- C1 witness: the amended atomicity theorem applied at concrete
failing calls of each of the four operations. -/
theorem atomicity_amended_witness :
    (AddFertilizerToDelivery sDeliveryOnly "Org3MSP" "u3" "t1" "D001" "F002"
      "NPK" 10).2 = [] ∧
    ((InitDeliveryWithFertilizer sDeliveryOnly "Org1MSP" "u1" "t0" "D001" "F001"
        "UREA" 50 "Org3MSP" "u3").2 = [] ↔
      ¬(("Org1MSP" : String) = "Org1MSP" ∧ getState sDeliveryOnly "F001" = none ∧
        (getState sDeliveryOnly "D001").isSome)) ∧
    (TransferDelivery sDeliveryOnly "Org9MSP" "u9" "t1" "D001" "Org2MSP" "u2").2 = [] ∧
    (AcceptDelivery sDeliveryOnly "Org9MSP" "u9" "t1" "D001" ["F001"]).2 = [] :=
  ⟨atomicity_amended.1 sDeliveryOnly "Org3MSP" "u3" "t1" "D001" "F002" "NPK" 10
      .unauthorized (by decide),
   atomicity_amended.2.1 sDeliveryOnly "Org1MSP" "u1" "t0" "D001" "F001" "UREA" 50
      "Org3MSP" "u3" .alreadyExists (by decide),
   atomicity_amended.2.2.1 sDeliveryOnly "Org9MSP" "u9" "t1" "D001" "Org2MSP" "u2"
      .unauthorizedOrInvalidState (by decide) (by decide) (by decide),
   atomicity_amended.2.2.2 sDeliveryOnly "Org9MSP" "u9" "t1" "D001" ["F001"]
      .unauthorizedOrInvalidState (by decide) (by decide) (by decide) (by decide)⟩

/-- C2: the TransferDelivery transition is a function of the pair of
caller org and delivery status: the supplier org on an INITIATED
delivery advances it to IN_TRANSIT_TO_TRANSPORTER (the
in-transit-to-carrier status of the design document), the transporter
org on a TRANSFERRED_TO_TRANSPORTER delivery advances it to
IN_TRANSIT_TO_AGRODEALER, and every other pair is rejected with the
merged rejection whose message reads "not authorized or ... not in a
transferable state" (the Unauthorized or InvalidState rejection of the
design document) while no write is issued, leaving the ledger equal,
hence byte-identical under the deterministic encoding. -/
theorem transfer_transition_spec (s : WorldState)
    (callerOrg callerId ts deliveryId newOwnerOrg newOwnerId : String) (d : Delivery)
    (hd : getState s deliveryId = some (.deliv d))
    (hkey : d.deliveryId = deliveryId) :
    (callerOrg = "Org1MSP" → d.status = "INITIATED" →
      (TransferDelivery s callerOrg callerId ts deliveryId newOwnerOrg
        newOwnerId).1 = .ok () →
      ∃ d' : Delivery,
        getState (applyWrites s (TransferDelivery s callerOrg callerId ts
          deliveryId newOwnerOrg newOwnerId).2) deliveryId = some (.deliv d') ∧
        d'.status = "IN_TRANSIT_TO_TRANSPORTER") ∧
    (callerOrg = "Org2MSP" → d.status = "TRANSFERRED_TO_TRANSPORTER" →
      (TransferDelivery s callerOrg callerId ts deliveryId newOwnerOrg
        newOwnerId).1 = .ok () →
      ∃ d' : Delivery,
        getState (applyWrites s (TransferDelivery s callerOrg callerId ts
          deliveryId newOwnerOrg newOwnerId).2) deliveryId = some (.deliv d') ∧
        d'.status = "IN_TRANSIT_TO_AGRODEALER") ∧
    (¬(callerOrg = "Org1MSP" ∧ d.status = "INITIATED") →
     ¬(callerOrg = "Org2MSP" ∧ d.status = "TRANSFERRED_TO_TRANSPORTER") →
      (TransferDelivery s callerOrg callerId ts deliveryId newOwnerOrg
        newOwnerId).1 = .error .unauthorizedOrInvalidState ∧
      (TransferDelivery s callerOrg callerId ts deliveryId newOwnerOrg
        newOwnerId).2 = [] ∧
      applyWrites s (TransferDelivery s callerOrg callerId ts deliveryId
        newOwnerOrg newOwnerId).2 = s) := by
  refine ⟨?_, ?_, ?_⟩
  · intro h1 h2 hok
    by_cases hno : newOwnerOrg = "Org2MSP"
    · have hTD : TransferDelivery s callerOrg callerId ts deliveryId newOwnerOrg
          newOwnerId =
          transferFinish s callerOrg callerId ts "TRANSFER_INITIATED_TO_TRANSPORTER"
            "IN_TRANSIT_TO_TRANSPORTER" newOwnerOrg newOwnerId
            { d with currentTransporterOrg := some newOwnerOrg,
                     currentTransporterId := some newOwnerId } := by
        simp [TransferDelivery, hd, h1, h2, hno]
      rw [hTD] at hok ⊢
      have hres := transferFinish_ok_delivery _ _ _ _ _ _ _ _ _ hok
      have hkey2 : ({ d with
          currentTransporterOrg := some newOwnerOrg
          currentTransporterId := some newOwnerId } : Delivery).deliveryId =
          deliveryId := hkey
      rw [← hkey2]
      exact ⟨_, hres, rfl⟩
    · have hbad : (TransferDelivery s callerOrg callerId ts deliveryId newOwnerOrg
          newOwnerId).1 = .error .unauthorized := by
        simp [TransferDelivery, hd, h1, h2, hno]
      rw [hbad] at hok
      simp at hok
  · intro h1 h2 hok
    by_cases hno : newOwnerOrg = "Org3MSP"
    · have hTD : TransferDelivery s callerOrg callerId ts deliveryId newOwnerOrg
          newOwnerId =
          transferFinish s callerOrg callerId ts "TRANSFER_INITIATED_TO_AGRODEALER"
            "IN_TRANSIT_TO_AGRODEALER" newOwnerOrg newOwnerId d := by
        simp [TransferDelivery, hd, h1, h2, hno]
      rw [hTD] at hok ⊢
      have hres := transferFinish_ok_delivery _ _ _ _ _ _ _ _ _ hok
      rw [← hkey]
      exact ⟨_, hres, rfl⟩
    · have hbad : (TransferDelivery s callerOrg callerId ts deliveryId newOwnerOrg
          newOwnerId).1 = .error .unauthorized := by
        simp [TransferDelivery, hd, h1, h2, hno]
      rw [hbad] at hok
      simp at hok
  · intro hn1 hn2
    have hstep : TransferDelivery s callerOrg callerId ts deliveryId newOwnerOrg
        newOwnerId = (.error .unauthorizedOrInvalidState, []) := by
      simp [TransferDelivery, hd, hn1, hn2]
    rw [hstep]
    exact ⟨rfl, rfl, rfl⟩

/-- C2 witness: the transition theorem applied at a concrete valid
supplier hand-off of delivery D001 to the transporter. -/
theorem transfer_transition_spec_witness :
    (("Org1MSP" : String) = "Org1MSP" → dInitiated.status = "INITIATED" →
      (TransferDelivery sInitiated "Org1MSP" "u1" "t1" "D001" "Org2MSP" "u2").1 =
        .ok () →
      ∃ d' : Delivery,
        getState (applyWrites sInitiated (TransferDelivery sInitiated "Org1MSP"
          "u1" "t1" "D001" "Org2MSP" "u2").2) "D001" = some (.deliv d') ∧
        d'.status = "IN_TRANSIT_TO_TRANSPORTER") ∧
    (("Org1MSP" : String) = "Org2MSP" → dInitiated.status = "TRANSFERRED_TO_TRANSPORTER" →
      (TransferDelivery sInitiated "Org1MSP" "u1" "t1" "D001" "Org2MSP" "u2").1 =
        .ok () →
      ∃ d' : Delivery,
        getState (applyWrites sInitiated (TransferDelivery sInitiated "Org1MSP"
          "u1" "t1" "D001" "Org2MSP" "u2").2) "D001" = some (.deliv d') ∧
        d'.status = "IN_TRANSIT_TO_AGRODEALER") ∧
    (¬(("Org1MSP" : String) = "Org1MSP" ∧ dInitiated.status = "INITIATED") →
     ¬(("Org1MSP" : String) = "Org2MSP" ∧ dInitiated.status = "TRANSFERRED_TO_TRANSPORTER") →
      (TransferDelivery sInitiated "Org1MSP" "u1" "t1" "D001" "Org2MSP" "u2").1 =
        .error .unauthorizedOrInvalidState ∧
      (TransferDelivery sInitiated "Org1MSP" "u1" "t1" "D001" "Org2MSP" "u2").2 = [] ∧
      applyWrites sInitiated (TransferDelivery sInitiated "Org1MSP" "u1" "t1"
        "D001" "Org2MSP" "u2").2 = sInitiated) :=
  transfer_transition_spec sInitiated "Org1MSP" "u1" "t1" "D001" "Org2MSP" "u2"
    dInitiated (by decide) (by decide)

/-- C10: TransferDelivery validates the supplied new-owner org against
the fixed next role of the chain. A supplier-phase call whose target is
not the transporter org, and a transporter-phase call whose target is
not the agrodealer org, are rejected before any ledger write is
issued. -/
theorem transfer_target_org_spec (s : WorldState)
    (callerOrg callerId ts deliveryId newOwnerOrg newOwnerId : String) (d : Delivery)
    (hd : getState s deliveryId = some (.deliv d)) :
    (callerOrg = "Org1MSP" → d.status = "INITIATED" → newOwnerOrg ≠ "Org2MSP" →
      (TransferDelivery s callerOrg callerId ts deliveryId newOwnerOrg
        newOwnerId).1 = .error .unauthorized ∧
      (TransferDelivery s callerOrg callerId ts deliveryId newOwnerOrg
        newOwnerId).2 = []) ∧
    (callerOrg = "Org2MSP" → d.status = "TRANSFERRED_TO_TRANSPORTER" →
      newOwnerOrg ≠ "Org3MSP" →
      (TransferDelivery s callerOrg callerId ts deliveryId newOwnerOrg
        newOwnerId).1 = .error .unauthorized ∧
      (TransferDelivery s callerOrg callerId ts deliveryId newOwnerOrg
        newOwnerId).2 = []) := by
  constructor
  · intro h1 h2 hno
    have hstep : TransferDelivery s callerOrg callerId ts deliveryId newOwnerOrg
        newOwnerId = (.error .unauthorized, []) := by
      simp [TransferDelivery, hd, h1, h2, hno]
    rw [hstep]
    exact ⟨rfl, rfl⟩
  · intro h1 h2 hno
    have hstep : TransferDelivery s callerOrg callerId ts deliveryId newOwnerOrg
        newOwnerId = (.error .unauthorized, []) := by
      simp [TransferDelivery, hd, h1, h2, hno]
    rw [hstep]
    exact ⟨rfl, rfl⟩

/-- C4: an accept call whose scanned id set differs from the member id
set of the delivery fails with the content mismatch error and issues no
write, in either accepting phase. Set equality is equality of the
toFinset images; the check of the code (equal lengths and membership of
every member id among the scanned ids) fails exactly then for a
duplicate-free member list. -/
theorem accept_content_mismatch_spec (s : WorldState)
    (acceptorOrg acceptorId ts deliveryId : String) (scanned : List String)
    (d : Delivery)
    (hd : getState s deliveryId = some (.deliv d))
    (hnd : d.fertilizerIds.Nodup)
    (hbranch : (d.status = "IN_TRANSIT_TO_TRANSPORTER" ∧ acceptorOrg = "Org2MSP" ∧
        d.currentTransporterId = some acceptorId) ∨
      (d.status = "IN_TRANSIT_TO_AGRODEALER" ∧ acceptorOrg = "Org3MSP" ∧
        d.agrodealerId = some acceptorId))
    (hmis : d.fertilizerIds.toFinset ≠ scanned.toFinset) :
    (AcceptDelivery s acceptorOrg acceptorId ts deliveryId scanned).1 =
      .error .contentMismatch ∧
    (AcceptDelivery s acceptorOrg acceptorId ts deliveryId scanned).2 = [] ∧
    applyWrites s (AcceptDelivery s acceptorOrg acceptorId ts deliveryId
      scanned).2 = s := by
  have hcond : d.fertilizerIds.length ≠ scanned.length ∨
      ¬ (∀ id ∈ d.fertilizerIds, id ∈ scanned) := by
    by_contra hcon
    push_neg at hcon
    exact hmis (content_check_set_eq _ _ hnd hcon.1 hcon.2)
  rcases hbranch with ⟨hst, hao, hrec⟩ | ⟨hst, hao, hrec⟩
  · have hAD : AcceptDelivery s acceptorOrg acceptorId ts deliveryId scanned =
        acceptFinish s acceptorOrg acceptorId ts scanned
          { d with currentTransporterOrg := some acceptorOrg,
                   currentTransporterId := some acceptorId }
          (some d.supplierOrg) (some d.supplierId)
          "TRANSFERRED_TO_TRANSPORTER" "RECEIVED_BY_TRANSPORTER" := by
      simp [AcceptDelivery, hd, hst, hao, hrec]
    rw [hAD]
    have hfin : acceptFinish s acceptorOrg acceptorId ts scanned
        { d with currentTransporterOrg := some acceptorOrg,
                 currentTransporterId := some acceptorId }
        (some d.supplierOrg) (some d.supplierId)
        "TRANSFERRED_TO_TRANSPORTER" "RECEIVED_BY_TRANSPORTER" =
        (.error .contentMismatch, []) := by
      unfold acceptFinish
      rw [if_pos hcond]
    rw [hfin]
    exact ⟨rfl, rfl, rfl⟩
  · have hAD : AcceptDelivery s acceptorOrg acceptorId ts deliveryId scanned =
        acceptFinish s acceptorOrg acceptorId ts scanned
          { d with agrodealerOrg := some acceptorOrg,
                   agrodealerId := some acceptorId }
          d.currentTransporterOrg d.currentTransporterId
          "COMPLETED" "RECEIVED_BY_AGRODEALER" := by
      simp [AcceptDelivery, hd, hst, hao, hrec]
    rw [hAD]
    have hfin : acceptFinish s acceptorOrg acceptorId ts scanned
        { d with agrodealerOrg := some acceptorOrg,
                 agrodealerId := some acceptorId }
        d.currentTransporterOrg d.currentTransporterId
        "COMPLETED" "RECEIVED_BY_AGRODEALER" =
        (.error .contentMismatch, []) := by
      unfold acceptFinish
      rw [if_pos hcond]
    rw [hfin]
    exact ⟨rfl, rfl, rfl⟩

/-- C4 witness: the content mismatch theorem applied at a concrete
accept call scanning the wrong unit id F002 for delivery D001 whose
only member is F001. -/
theorem accept_content_mismatch_spec_witness :
    (AcceptDelivery sInTransit "Org2MSP" "u2" "t2" "D001" ["F002"]).1 =
      .error .contentMismatch ∧
    (AcceptDelivery sInTransit "Org2MSP" "u2" "t2" "D001" ["F002"]).2 = [] ∧
    applyWrites sInTransit (AcceptDelivery sInTransit "Org2MSP" "u2" "t2" "D001"
      ["F002"]).2 = sInTransit :=
  accept_content_mismatch_spec sInTransit "Org2MSP" "u2" "t2" "D001" ["F002"]
    dInTransit (by decide) (by decide)
    (Or.inl ⟨by decide, rfl, by decide⟩) (by decide)

/-- C8: on a successful TransferDelivery, every member unit keeps its
owner org and identity and every other field, except that its status
becomes IN_DELIVERY and exactly one transfer-initiation event is
appended to its history (the TRANSFER_INITIATED event family of the
design document, refined by the code to
TRANSFER_INITIATED_TO_TRANSPORTER or TRANSFER_INITIATED_TO_AGRODEALER),
recording the intended new owner while leaving the current owner
untouched. -/
theorem transfer_frame_spec (s : WorldState)
    (callerOrg callerId ts deliveryId newOwnerOrg newOwnerId : String) (d : Delivery)
    (hd : getState s deliveryId = some (.deliv d))
    (hwk : FertKeysFaithful s d.fertilizerIds)
    (hnd : d.fertilizerIds.Nodup)
    (hnin : d.deliveryId ∉ d.fertilizerIds)
    (hok : (TransferDelivery s callerOrg callerId ts deliveryId newOwnerOrg
      newOwnerId).1 = .ok ()) :
    ∃ act : String,
      (act = "TRANSFER_INITIATED_TO_TRANSPORTER" ∨
       act = "TRANSFER_INITIATED_TO_AGRODEALER") ∧
      ∀ fid ∈ d.fertilizerIds, ∃ f : Fertilizer,
        getState s fid = some (.fert f) ∧
        getState (applyWrites s (TransferDelivery s callerOrg callerId ts
          deliveryId newOwnerOrg newOwnerId).2) fid =
          some (.fert { f with
            docType := "fertilizer"
            status := "IN_DELIVERY"
            history := f.history ++ [{
              timestamp := ts
              actorOrg := callerOrg
              actorId := callerId
              action := act
              previousOwnerOrg := some f.currentOwnerOrg
              previousOwnerId := some f.currentOwnerId
              newOwnerOrg := some newOwnerOrg
              newOwnerId := some newOwnerId }] }) := by
  by_cases h1 : callerOrg = "Org1MSP" ∧ d.status = "INITIATED"
  · by_cases hno : newOwnerOrg = "Org2MSP"
    · refine ⟨"TRANSFER_INITIATED_TO_TRANSPORTER", Or.inl rfl, ?_⟩
      have hTD : TransferDelivery s callerOrg callerId ts deliveryId newOwnerOrg
          newOwnerId =
          transferFinish s callerOrg callerId ts "TRANSFER_INITIATED_TO_TRANSPORTER"
            "IN_TRANSIT_TO_TRANSPORTER" newOwnerOrg newOwnerId
            { d with currentTransporterOrg := some newOwnerOrg,
                     currentTransporterId := some newOwnerId } := by
        simp [TransferDelivery, hd, h1.1, h1.2, hno]
      rw [hTD] at hok ⊢
      intro fid hfid
      obtain ⟨f, hf, hfo, hfl⟩ := transferFinish_ok_units _ _ _ _ _ _ _ _
        { d with currentTransporterOrg := some newOwnerOrg,
                 currentTransporterId := some newOwnerId }
        hwk hnd hnin hok fid hfid
      exact ⟨f, hf, hfl⟩
    · have hbad : (TransferDelivery s callerOrg callerId ts deliveryId newOwnerOrg
          newOwnerId).1 = .error .unauthorized := by
        simp [TransferDelivery, hd, h1.1, h1.2, hno]
      rw [hbad] at hok
      simp at hok
  · by_cases h2 : callerOrg = "Org2MSP" ∧ d.status = "TRANSFERRED_TO_TRANSPORTER"
    · by_cases hno : newOwnerOrg = "Org3MSP"
      · refine ⟨"TRANSFER_INITIATED_TO_AGRODEALER", Or.inr rfl, ?_⟩
        have hTD : TransferDelivery s callerOrg callerId ts deliveryId newOwnerOrg
            newOwnerId =
            transferFinish s callerOrg callerId ts "TRANSFER_INITIATED_TO_AGRODEALER"
              "IN_TRANSIT_TO_AGRODEALER" newOwnerOrg newOwnerId d := by
          simp [TransferDelivery, hd, h1, h2.1, h2.2, hno]
        rw [hTD] at hok ⊢
        intro fid hfid
        obtain ⟨f, hf, hfo, hfl⟩ := transferFinish_ok_units _ _ _ _ _ _ _ _ d
          hwk hnd hnin hok fid hfid
        exact ⟨f, hf, hfl⟩
      · have hbad : (TransferDelivery s callerOrg callerId ts deliveryId newOwnerOrg
            newOwnerId).1 = .error .unauthorized := by
          simp [TransferDelivery, hd, h1, h2.1, h2.2, hno]
        rw [hbad] at hok
        simp at hok
    · have hbad : (TransferDelivery s callerOrg callerId ts deliveryId newOwnerOrg
          newOwnerId).1 = .error .unauthorizedOrInvalidState := by
        simp [TransferDelivery, hd, h1, h2]
      rw [hbad] at hok
      simp at hok

/-- C8 witness: the frame theorem applied at the concrete supplier
hand-off of delivery D001 with single member F001. -/
theorem transfer_frame_spec_witness :
    ∃ act : String,
      (act = "TRANSFER_INITIATED_TO_TRANSPORTER" ∨
       act = "TRANSFER_INITIATED_TO_AGRODEALER") ∧
      ∀ fid ∈ dInitiated.fertilizerIds, ∃ f : Fertilizer,
        getState sInitiated fid = some (.fert f) ∧
        getState (applyWrites sInitiated (TransferDelivery sInitiated "Org1MSP"
          "u1" "t1" "D001" "Org2MSP" "u2").2) fid =
          some (.fert { f with
            docType := "fertilizer"
            status := "IN_DELIVERY"
            history := f.history ++ [{
              timestamp := "t1"
              actorOrg := "Org1MSP"
              actorId := "u1"
              action := act
              previousOwnerOrg := some f.currentOwnerOrg
              previousOwnerId := some f.currentOwnerId
              newOwnerOrg := some "Org2MSP"
              newOwnerId := some "u2" }] }) :=
  transfer_frame_spec sInitiated "Org1MSP" "u1" "t1" "D001" "Org2MSP" "u2"
    dInitiated (by decide)
    (by
      intro fid hfid f hf
      have hfid' : fid = "F001" := by simpa [dInitiated] using hfid
      subst hfid'
      have hv : getState sInitiated "F001" = some (.fert fRegistered) := by decide
      rw [hv] at hf
      injection hf with h
      injection h with h2
      rw [← h2]
      decide)
    (by decide) (by decide) (by decide)

/-- C10 witness: the target-org theorem applied at a concrete
supplier-phase call whose target org Org9MSP is not the transporter. -/
theorem transfer_target_org_spec_witness :
    (("Org1MSP" : String) = "Org1MSP" → dInitiated.status = "INITIATED" →
      ("Org9MSP" : String) ≠ "Org2MSP" →
      (TransferDelivery sInitiated "Org1MSP" "u1" "t1" "D001" "Org9MSP" "u9").1 =
        .error .unauthorized ∧
      (TransferDelivery sInitiated "Org1MSP" "u1" "t1" "D001" "Org9MSP" "u9").2 = []) ∧
    (("Org1MSP" : String) = "Org2MSP" → dInitiated.status = "TRANSFERRED_TO_TRANSPORTER" →
      ("Org9MSP" : String) ≠ "Org3MSP" →
      (TransferDelivery sInitiated "Org1MSP" "u1" "t1" "D001" "Org9MSP" "u9").1 =
        .error .unauthorized ∧
      (TransferDelivery sInitiated "Org1MSP" "u1" "t1" "D001" "Org9MSP" "u9").2 = []) :=
  transfer_target_org_spec sInitiated "Org1MSP" "u1" "t1" "D001" "Org9MSP" "u9"
    dInitiated (by decide)

/-- C3: AcceptDelivery. On success the accepting phase is determined by
the delivery status and caller org; every member unit existed with
status IN_DELIVERY and owner equal to the expected previous owner of
the phase (the supplier in the transporter phase, the current
transporter in the agrodealer phase), and is reassigned to the
accepting org and identity with one received event
(RECEIVED_BY_TRANSPORTER or RECEIVED_BY_AGRODEALER) appended; the
delivery status advances, reaching terminal COMPLETED when the
agrodealer (recipient) accepts. When, in a phase whose delivery-level
checks pass, some member unit exists with the wrong owner or a status
other than IN_DELIVERY, the call fails with the ownership mismatch or
the invalid state error. -/
theorem accept_spec (s : WorldState) (acceptorOrg acceptorId ts deliveryId : String)
    (scanned : List String) (d : Delivery)
    (hd : getState s deliveryId = some (.deliv d))
    (hkey : d.deliveryId = deliveryId)
    (hwk : FertKeysFaithful s d.fertilizerIds)
    (hnd : d.fertilizerIds.Nodup)
    (hnin : d.deliveryId ∉ d.fertilizerIds) :
    ((AcceptDelivery s acceptorOrg acceptorId ts deliveryId scanned).1 = .ok () →
      ∃ (po pi : Option String) (act ns : String),
        ((d.status = "IN_TRANSIT_TO_TRANSPORTER" ∧ acceptorOrg = "Org2MSP" ∧
          po = some d.supplierOrg ∧ pi = some d.supplierId ∧
          act = "RECEIVED_BY_TRANSPORTER" ∧ ns = "TRANSFERRED_TO_TRANSPORTER") ∨
         (d.status = "IN_TRANSIT_TO_AGRODEALER" ∧ acceptorOrg = "Org3MSP" ∧
          po = d.currentTransporterOrg ∧ pi = d.currentTransporterId ∧
          act = "RECEIVED_BY_AGRODEALER" ∧ ns = "COMPLETED")) ∧
        (acceptorOrg = "Org3MSP" → ns = "COMPLETED") ∧
        (∀ fid ∈ d.fertilizerIds, ∃ f : Fertilizer,
          getState s fid = some (.fert f) ∧
          some f.currentOwnerOrg = po ∧ f.status = "IN_DELIVERY" ∧
          getState (applyWrites s (AcceptDelivery s acceptorOrg acceptorId ts
            deliveryId scanned).2) fid =
            some (.fert { f with
              docType := "fertilizer"
              currentOwnerOrg := acceptorOrg
              currentOwnerId := acceptorId
              status := if acceptorOrg = "Org3MSP" then "DELIVERED_TO_AGRODEALER"
                        else "TRANSFERRED_TO_NEXT_PARTY"
              history := f.history ++ [{
                timestamp := ts
                actorOrg := acceptorOrg
                actorId := acceptorId
                action := act
                previousOwnerOrg := po
                previousOwnerId := pi
                newOwnerOrg := some acceptorOrg
                newOwnerId := some acceptorId }] })) ∧
        (∃ d' : Delivery, getState (applyWrites s (AcceptDelivery s acceptorOrg
          acceptorId ts deliveryId scanned).2) deliveryId = some (.deliv d') ∧
          d'.status = ns)) ∧
    (d.status = "IN_TRANSIT_TO_TRANSPORTER" → acceptorOrg = "Org2MSP" →
      d.currentTransporterId = some acceptorId →
      d.fertilizerIds.length = scanned.length →
      (∀ id ∈ d.fertilizerIds, id ∈ scanned) →
      (∀ fid ∈ d.fertilizerIds, ∃ f : Fertilizer, getState s fid = some (.fert f)) →
      (∃ fid ∈ d.fertilizerIds, ∃ f : Fertilizer, getState s fid = some (.fert f) ∧
        (some f.currentOwnerOrg ≠ some d.supplierOrg ∨ f.status ≠ "IN_DELIVERY")) →
      ∃ e : CCErr, (AcceptDelivery s acceptorOrg acceptorId ts deliveryId
        scanned).1 = .error e ∧ (e = .ownershipMismatch ∨ e = .invalidState)) ∧
    (d.status = "IN_TRANSIT_TO_AGRODEALER" → acceptorOrg = "Org3MSP" →
      d.agrodealerId = some acceptorId →
      d.fertilizerIds.length = scanned.length →
      (∀ id ∈ d.fertilizerIds, id ∈ scanned) →
      (∀ fid ∈ d.fertilizerIds, ∃ f : Fertilizer, getState s fid = some (.fert f)) →
      (∃ fid ∈ d.fertilizerIds, ∃ f : Fertilizer, getState s fid = some (.fert f) ∧
        (some f.currentOwnerOrg ≠ d.currentTransporterOrg ∨ f.status ≠ "IN_DELIVERY")) →
      ∃ e : CCErr, (AcceptDelivery s acceptorOrg acceptorId ts deliveryId
        scanned).1 = .error e ∧ (e = .ownershipMismatch ∨ e = .invalidState)) := by
  refine ⟨?_, ?_, ?_⟩
  · intro hok
    by_cases hb1 : d.status = "IN_TRANSIT_TO_TRANSPORTER" ∧ acceptorOrg = "Org2MSP"
    · by_cases hrec : d.currentTransporterId = some acceptorId
      · have hAD : AcceptDelivery s acceptorOrg acceptorId ts deliveryId scanned =
            acceptFinish s acceptorOrg acceptorId ts scanned
              { d with currentTransporterOrg := some acceptorOrg,
                       currentTransporterId := some acceptorId }
              (some d.supplierOrg) (some d.supplierId)
              "TRANSFERRED_TO_TRANSPORTER" "RECEIVED_BY_TRANSPORTER" := by
          simp [AcceptDelivery, hd, hb1.1, hb1.2, hrec]
        rw [hAD] at hok ⊢
        refine ⟨some d.supplierOrg, some d.supplierId, "RECEIVED_BY_TRANSPORTER",
          "TRANSFERRED_TO_TRANSPORTER",
          Or.inl ⟨hb1.1, hb1.2, rfl, rfl, rfl, rfl⟩,
          ?_, ?_, ?_⟩
        · intro h3
          rw [hb1.2] at h3
          exact absurd h3 (by decide)
        · intro fid hfid
          obtain ⟨f, hf, hfo, hfs, hfl⟩ := acceptFinish_ok_units _ _ _ _ _
            { d with currentTransporterOrg := some acceptorOrg,
                     currentTransporterId := some acceptorId }
            _ _ _ _ hwk hnd hnin hok fid hfid
          exact ⟨f, hf, hfo, hfs, hfl⟩
        · have hres := acceptFinish_ok_delivery _ _ _ _ _
            { d with currentTransporterOrg := some acceptorOrg,
                     currentTransporterId := some acceptorId }
            _ _ _ _ hok
          rw [← hkey]
          exact ⟨_, hres, rfl⟩
      · have hbad : (AcceptDelivery s acceptorOrg acceptorId ts deliveryId
            scanned).1 = .error .recipientMismatch := by
          simp [AcceptDelivery, hd, hb1.1, hb1.2, hrec]
        rw [hbad] at hok
        simp at hok
    · by_cases hb2 : d.status = "IN_TRANSIT_TO_AGRODEALER" ∧ acceptorOrg = "Org3MSP"
      · by_cases hrec : d.agrodealerId = some acceptorId
        · have hAD : AcceptDelivery s acceptorOrg acceptorId ts deliveryId scanned =
              acceptFinish s acceptorOrg acceptorId ts scanned
                { d with agrodealerOrg := some acceptorOrg,
                         agrodealerId := some acceptorId }
                d.currentTransporterOrg d.currentTransporterId
                "COMPLETED" "RECEIVED_BY_AGRODEALER" := by
            simp [AcceptDelivery, hd, hb1, hb2.1, hb2.2, hrec]
          rw [hAD] at hok ⊢
          refine ⟨d.currentTransporterOrg, d.currentTransporterId,
            "RECEIVED_BY_AGRODEALER", "COMPLETED",
            Or.inr ⟨hb2.1, hb2.2, rfl, rfl, rfl, rfl⟩,
            fun _ => rfl, ?_, ?_⟩
          · intro fid hfid
            obtain ⟨f, hf, hfo, hfs, hfl⟩ := acceptFinish_ok_units _ _ _ _ _
              { d with agrodealerOrg := some acceptorOrg,
                       agrodealerId := some acceptorId }
              _ _ _ _ hwk hnd hnin hok fid hfid
            exact ⟨f, hf, hfo, hfs, hfl⟩
          · have hres := acceptFinish_ok_delivery _ _ _ _ _
              { d with agrodealerOrg := some acceptorOrg,
                       agrodealerId := some acceptorId }
              _ _ _ _ hok
            rw [← hkey]
            exact ⟨_, hres, rfl⟩
        · have hbad : (AcceptDelivery s acceptorOrg acceptorId ts deliveryId
              scanned).1 = .error .recipientMismatch := by
            simp [AcceptDelivery, hd, hb1, hb2.1, hb2.2, hrec]
          rw [hbad] at hok
          simp at hok
      · have hbad : (AcceptDelivery s acceptorOrg acceptorId ts deliveryId
            scanned).1 = .error .unauthorizedOrInvalidState := by
          simp [AcceptDelivery, hd, hb1, hb2]
        rw [hbad] at hok
        simp at hok
  · intro hst hao hrec hlen hsub hex hbad
    have hAD : AcceptDelivery s acceptorOrg acceptorId ts deliveryId scanned =
        acceptFinish s acceptorOrg acceptorId ts scanned
          { d with currentTransporterOrg := some acceptorOrg,
                   currentTransporterId := some acceptorId }
          (some d.supplierOrg) (some d.supplierId)
          "TRANSFERRED_TO_TRANSPORTER" "RECEIVED_BY_TRANSPORTER" := by
      simp [AcceptDelivery, hd, hst, hao, hrec]
    rw [hAD]
    have hcnot : ¬(d.fertilizerIds.length ≠ scanned.length ∨
        ¬ (∀ id ∈ d.fertilizerIds, id ∈ scanned)) := by
      push_neg
      exact ⟨hlen, hsub⟩
    obtain ⟨e, he, hk⟩ := acceptUnits_err_of_violation s acceptorOrg acceptorId ts
      (some d.supplierOrg) (some d.supplierId) "RECEIVED_BY_TRANSPORTER"
      d.fertilizerIds hex hbad
    refine ⟨e, ?_, hk⟩
    unfold acceptFinish
    rw [if_neg hcnot]
    dsimp only
    rw [he]
  · intro hst hao hrec hlen hsub hex hbad
    have hAD : AcceptDelivery s acceptorOrg acceptorId ts deliveryId scanned =
        acceptFinish s acceptorOrg acceptorId ts scanned
          { d with agrodealerOrg := some acceptorOrg,
                   agrodealerId := some acceptorId }
          d.currentTransporterOrg d.currentTransporterId
          "COMPLETED" "RECEIVED_BY_AGRODEALER" := by
      simp [AcceptDelivery, hd, hst, hao, hrec]
    rw [hAD]
    have hcnot : ¬(d.fertilizerIds.length ≠ scanned.length ∨
        ¬ (∀ id ∈ d.fertilizerIds, id ∈ scanned)) := by
      push_neg
      exact ⟨hlen, hsub⟩
    obtain ⟨e, he, hk⟩ := acceptUnits_err_of_violation s acceptorOrg acceptorId ts
      d.currentTransporterOrg d.currentTransporterId "RECEIVED_BY_AGRODEALER"
      d.fertilizerIds hex hbad
    refine ⟨e, ?_, hk⟩
    unfold acceptFinish
    rw [if_neg hcnot]
    dsimp only
    rw [he]

/-- C3 witness: the accept theorem applied at the concrete transporter
acceptance of delivery D001 with the correct scan of its single member
F001. -/
theorem accept_spec_witness :
    ((AcceptDelivery sInTransit "Org2MSP" "u2" "t2" "D001" ["F001"]).1 = .ok () →
      ∃ (po pi : Option String) (act ns : String),
        ((dInTransit.status = "IN_TRANSIT_TO_TRANSPORTER" ∧ ("Org2MSP" : String) = "Org2MSP" ∧
          po = some dInTransit.supplierOrg ∧ pi = some dInTransit.supplierId ∧
          act = "RECEIVED_BY_TRANSPORTER" ∧ ns = "TRANSFERRED_TO_TRANSPORTER") ∨
         (dInTransit.status = "IN_TRANSIT_TO_AGRODEALER" ∧ ("Org2MSP" : String) = "Org3MSP" ∧
          po = dInTransit.currentTransporterOrg ∧ pi = dInTransit.currentTransporterId ∧
          act = "RECEIVED_BY_AGRODEALER" ∧ ns = "COMPLETED")) ∧
        (("Org2MSP" : String) = "Org3MSP" → ns = "COMPLETED") ∧
        (∀ fid ∈ dInTransit.fertilizerIds, ∃ f : Fertilizer,
          getState sInTransit fid = some (.fert f) ∧
          some f.currentOwnerOrg = po ∧ f.status = "IN_DELIVERY" ∧
          getState (applyWrites sInTransit (AcceptDelivery sInTransit "Org2MSP"
            "u2" "t2" "D001" ["F001"]).2) fid =
            some (.fert { f with
              docType := "fertilizer"
              currentOwnerOrg := "Org2MSP"
              currentOwnerId := "u2"
              status := if ("Org2MSP" : String) = "Org3MSP" then "DELIVERED_TO_AGRODEALER"
                        else "TRANSFERRED_TO_NEXT_PARTY"
              history := f.history ++ [{
                timestamp := "t2"
                actorOrg := "Org2MSP"
                actorId := "u2"
                action := act
                previousOwnerOrg := po
                previousOwnerId := pi
                newOwnerOrg := some "Org2MSP"
                newOwnerId := some "u2" }] })) ∧
        (∃ d' : Delivery, getState (applyWrites sInTransit (AcceptDelivery
          sInTransit "Org2MSP" "u2" "t2" "D001" ["F001"]).2) "D001" =
          some (.deliv d') ∧ d'.status = ns)) ∧
    (dInTransit.status = "IN_TRANSIT_TO_TRANSPORTER" → ("Org2MSP" : String) = "Org2MSP" →
      dInTransit.currentTransporterId = some "u2" →
      dInTransit.fertilizerIds.length = ["F001"].length →
      (∀ id ∈ dInTransit.fertilizerIds, id ∈ ["F001"]) →
      (∀ fid ∈ dInTransit.fertilizerIds, ∃ f : Fertilizer,
        getState sInTransit fid = some (.fert f)) →
      (∃ fid ∈ dInTransit.fertilizerIds, ∃ f : Fertilizer,
        getState sInTransit fid = some (.fert f) ∧
        (some f.currentOwnerOrg ≠ some dInTransit.supplierOrg ∨ f.status ≠ "IN_DELIVERY")) →
      ∃ e : CCErr, (AcceptDelivery sInTransit "Org2MSP" "u2" "t2" "D001"
        ["F001"]).1 = .error e ∧ (e = .ownershipMismatch ∨ e = .invalidState)) ∧
    (dInTransit.status = "IN_TRANSIT_TO_AGRODEALER" → ("Org2MSP" : String) = "Org3MSP" →
      dInTransit.agrodealerId = some "u2" →
      dInTransit.fertilizerIds.length = ["F001"].length →
      (∀ id ∈ dInTransit.fertilizerIds, id ∈ ["F001"]) →
      (∀ fid ∈ dInTransit.fertilizerIds, ∃ f : Fertilizer,
        getState sInTransit fid = some (.fert f)) →
      (∃ fid ∈ dInTransit.fertilizerIds, ∃ f : Fertilizer,
        getState sInTransit fid = some (.fert f) ∧
        (some f.currentOwnerOrg ≠ dInTransit.currentTransporterOrg ∨
          f.status ≠ "IN_DELIVERY")) →
      ∃ e : CCErr, (AcceptDelivery sInTransit "Org2MSP" "u2" "t2" "D001"
        ["F001"]).1 = .error e ∧ (e = .ownershipMismatch ∨ e = .invalidState)) :=
  accept_spec sInTransit "Org2MSP" "u2" "t2" "D001" ["F001"] dInTransit
    (by decide) (by decide)
    (by
      intro fid hfid f hf
      have hfid' : fid = "F001" := by simpa [dInTransit, dInitiated] using hfid
      subst hfid'
      have hv : getState sInTransit "F001" = some (.fert fInDelivery) := by decide
      rw [hv] at hf
      injection hf with h
      injection h with h2
      rw [← h2]
      decide)
    (by decide) (by decide)

/-- Mapping form of the recursive key sorting on field lists. -/
theorem sortKeysFields_eq_map (fs : List (String × JValue)) :
    sortKeysFields fs = fs.map (fun p => (p.1, sortKeysRecursive p.2)) := by
  induction fs with
  | nil => simp [sortKeysFields]
  | cons p rest ih =>
    obtain ⟨k, v⟩ := p
    simp [sortKeysFields, ih]

/-- Recursive key sorting does not change the keys of a field list. -/
theorem sortKeysFields_keys (fs : List (String × JValue)) :
    (sortKeysFields fs).map Prod.fst = fs.map Prod.fst := by
  rw [sortKeysFields_eq_map, List.map_map]
  rfl

/-- Membership form of the field well-formedness check. -/
theorem wfFields_iff (fs : List (String × JValue)) :
    wfFields fs = true ↔ ∀ p ∈ fs, wfJ p.2 = true := by
  induction fs with
  | nil => simp [wfFields]
  | cons p rest ih =>
    obtain ⟨k, v⟩ := p
    simp [wfFields, Bool.and_eq_true, ih]

/-- Membership form of the field key-sortedness check. -/
theorem allKeysSortedFields_iff (fs : List (String × JValue)) :
    allKeysSortedFields fs = true ↔ ∀ p ∈ fs, allKeysSorted p.2 = true := by
  induction fs with
  | nil => simp [allKeysSortedFields]
  | cons p rest ih =>
    obtain ⟨k, v⟩ := p
    simp [allKeysSortedFields, Bool.and_eq_true, ih]

/-- Key sorting is deterministic on permutations of a duplicate-free
field list: both orders sort to the same list. -/
theorem sortPairs_eq_of_perm {fs gs : List (String × JValue)}
    (hp : fs.Perm gs) (hnd : (fs.map Prod.fst).Nodup) :
    sortPairs fs = sortPairs gs := by
  have hperm : (sortPairs fs).Perm (sortPairs gs) :=
    ((List.perm_insertionSort keyLe fs).trans hp).trans
      (List.perm_insertionSort keyLe gs).symm
  have hnd1 : ((sortPairs fs).map Prod.fst).Nodup :=
    (((List.perm_insertionSort keyLe fs).symm).map Prod.fst).nodup hnd
  have hnd2 : ((sortPairs gs).map Prod.fst).Nodup :=
    (hperm.map Prod.fst).nodup hnd1
  have hlt1 : List.Sorted keyLt (sortPairs fs) := by
    have hs : List.Sorted keyLe (sortPairs fs) := List.sorted_insertionSort keyLe fs
    have hne : List.Pairwise (fun p q : String × JValue => p.1 ≠ q.1) (sortPairs fs) :=
      List.pairwise_map.mp hnd1
    exact (hs.and hne).imp (fun h => lt_of_le_of_ne h.1 h.2)
  have hlt2 : List.Sorted keyLt (sortPairs gs) := by
    have hs : List.Sorted keyLe (sortPairs gs) := List.sorted_insertionSort keyLe gs
    have hne : List.Pairwise (fun p q : String × JValue => p.1 ≠ q.1) (sortPairs gs) :=
      List.pairwise_map.mp hnd2
    exact (hs.and hne).imp (fun h => lt_of_le_of_ne h.1 h.2)
  exact List.eq_of_perm_of_sorted hperm hlt1 hlt2

/-- The boolean sortedness check holds on any weakly increasing string
list. -/
theorem sortedStringsB_of_pairwise :
    ∀ l : List String, List.Pairwise (· ≤ ·) l → sortedStringsB l = true
  | [], _ => rfl
  | [_], _ => rfl
  | a :: b :: rest, h => by
    rcases List.pairwise_cons.mp h with ⟨h1, h2⟩
    have hb := sortedStringsB_of_pairwise (b :: rest) h2
    have hab : a ≤ b := h1 b (List.mem_cons_self ..)
    simp [sortedStringsB, hab, hb]

mutual

/-- Every object of a key-sorted value lists its keys sorted, at every
depth. -/
theorem allKeysSorted_sortKeys (v : JValue) :
    allKeysSorted (sortKeysRecursive v) = true := by
  cases v with
  | null => simp [sortKeysRecursive, allKeysSorted]
  | bool b => simp [sortKeysRecursive, allKeysSorted]
  | num n => simp [sortKeysRecursive, allKeysSorted]
  | str s => simp [sortKeysRecursive, allKeysSorted]
  | arr es =>
    have h := allKeysSortedList_sortKeysList es
    simp [sortKeysRecursive, allKeysSorted, h]
  | obj fs =>
    have hfields := allKeysSortedFields_sortKeysFields fs
    have hsorted : List.Sorted keyLe (sortPairs (sortKeysFields fs)) :=
      List.sorted_insertionSort keyLe _
    have h1 : sortedStringsB ((sortPairs (sortKeysFields fs)).map Prod.fst) = true := by
      apply sortedStringsB_of_pairwise
      exact List.pairwise_map.mpr hsorted
    have h2 : allKeysSortedFields (sortPairs (sortKeysFields fs)) = true := by
      rw [allKeysSortedFields_iff]
      intro p hp
      exact (allKeysSortedFields_iff _).mp hfields p
        ((List.perm_insertionSort keyLe _).mem_iff.mp hp)
    simp [sortKeysRecursive, allKeysSorted, sortPairs] at h1 h2 ⊢
    exact ⟨h1, h2⟩

/-- Key-sortedness of the canonical image of every array element. -/
theorem allKeysSortedList_sortKeysList (es : List JValue) :
    allKeysSortedList (sortKeysList es) = true := by
  cases es with
  | nil => simp [sortKeysList, allKeysSortedList]
  | cons v vs =>
    have h1 := allKeysSorted_sortKeys v
    have h2 := allKeysSortedList_sortKeysList vs
    simp [sortKeysList, allKeysSortedList, h1, h2]

/-- Key-sortedness of the canonical image of every field value. -/
theorem allKeysSortedFields_sortKeysFields (fs : List (String × JValue)) :
    allKeysSortedFields (sortKeysFields fs) = true := by
  cases fs with
  | nil => simp [sortKeysFields, allKeysSortedFields]
  | cons p rest =>
    obtain ⟨k, v⟩ := p
    have h1 := allKeysSorted_sortKeys v
    have h2 := allKeysSortedFields_sortKeysFields rest
    simp [sortKeysFields, allKeysSortedFields, h1, h2]

end

/-- Canonicalization identifies values that differ only in object field
insertion order, provided object keys are duplicate-free. -/
theorem sortKeys_eq_of_jequiv {v w : JValue} (h : JEquiv v w) :
    wfJ v = true → sortKeysRecursive v = sortKeysRecursive w := by
  induction h with
  | null => exact fun _ => rfl
  | bool b => exact fun _ => rfl
  | num n => exact fun _ => rfl
  | str s => exact fun _ => rfl
  | arrNil => exact fun _ => rfl
  | objNil => exact fun _ => rfl
  | @arrCons v w vs ws hvw hrest ihv ihrest =>
    intro hwf
    have hwf' : wfJ v = true ∧ wfList vs = true := by
      simpa [wfJ, wfList, Bool.and_eq_true] using hwf
    have e1 := ihv hwf'.1
    have e2 := ihrest (by simpa [wfJ] using hwf'.2)
    simp only [sortKeysRecursive, sortKeysList] at e2 ⊢
    injection e2 with e2'
    rw [e1, e2']
  | @objCons k v w fs gs hvw hrest ihv ihrest =>
    intro hwf
    have hwf' : (k :: fs.map Prod.fst).Nodup ∧ wfJ v = true ∧ wfFields fs = true := by
      simpa [wfJ, wfFields, Bool.and_eq_true] using hwf
    have hndtail : (fs.map Prod.fst).Nodup := hwf'.1.of_cons
    have e1 := ihv hwf'.2.1
    have hfs : wfJ (.obj fs) = true := by
      simp only [wfJ, Bool.and_eq_true, decide_eq_true_eq]
      exact ⟨hndtail, hwf'.2.2⟩
    have e2 := ihrest hfs
    simp only [sortKeysRecursive, sortKeysFields] at e2 ⊢
    injection e2 with e2'
    rw [show sortPairs ((k, sortKeysRecursive v) :: sortKeysFields fs) =
        List.orderedInsert keyLe (k, sortKeysRecursive v)
          (sortPairs (sortKeysFields fs)) from rfl]
    rw [show sortPairs ((k, sortKeysRecursive w) :: sortKeysFields gs) =
        List.orderedInsert keyLe (k, sortKeysRecursive w)
          (sortPairs (sortKeysFields gs)) from rfl]
    rw [e1, e2']
  | @objPerm fs fs' g hperm hrest ih =>
    intro hwf
    have hwf' : (fs.map Prod.fst).Nodup ∧ wfFields fs = true := by
      simpa [wfJ, Bool.and_eq_true] using hwf
    obtain ⟨hnd, hwfF⟩ := hwf'
    have hnd' : (fs'.map Prod.fst).Nodup := (hperm.map Prod.fst).nodup hnd
    have hf' : wfFields fs' = true := by
      rw [wfFields_iff]
      intro p hp
      exact (wfFields_iff fs).mp hwfF p (hperm.mem_iff.mpr hp)
    have hwfobj' : wfJ (JValue.obj fs') = true := by
      simp only [wfJ, Bool.and_eq_true, decide_eq_true_eq]
      exact ⟨hnd', hf'⟩
    have e1 : sortKeysRecursive (JValue.obj fs) = sortKeysRecursive (JValue.obj fs') := by
      simp only [sortKeysRecursive]
      congr 1
      apply sortPairs_eq_of_perm
      · rw [sortKeysFields_eq_map, sortKeysFields_eq_map]
        exact hperm.map _
      · rw [sortKeysFields_keys]
        exact hnd
    rw [e1]
    exact ih hwfobj'

/-- C6: the canonical encoder is deterministic: it is a function of its
input; two well-formed values that are permutations of each other in
object field insertion order (at any depth) encode to identical bytes;
and the canonicalized value lists every object keys lexicographically
sorted at every nesting depth, which is the order the byte serialization
emits. -/
theorem canonical_encoder_deterministic :
    (∀ v : JValue, canonicalEncode v = canonicalEncode v) ∧
    (∀ v w : JValue, wfJ v = true → JEquiv v w →
      canonicalEncode v = canonicalEncode w) ∧
    (∀ v : JValue, allKeysSorted (sortKeysRecursive v) = true) :=
  ⟨fun _ => rfl,
   fun _ _ hwf h => congrArg stringify (sortKeys_eq_of_jequiv h hwf),
   allKeysSorted_sortKeys⟩

/-- C6 witness: the determinism theorem applied at a concrete pair of
values whose two field lists were inserted in opposite order at both
nesting depths. -/
theorem canonical_encoder_deterministic_witness :
    canonicalEncode vPermA = canonicalEncode vPermB :=
  canonical_encoder_deterministic.2.1 vPermA vPermB
    (by simp [vPermA, wfJ, wfFields, wfList])
    (JEquiv.objPerm
      (List.Perm.swap ("a", JValue.num 3)
        ("b", JValue.obj [("d", JValue.num 1), ("c", JValue.str "x")]) [])
      (JEquiv.objCons (JEquiv.num 3)
        (JEquiv.objCons
          (JEquiv.objPerm
            (List.Perm.swap ("c", JValue.str "x") ("d", JValue.num 1) [])
            (JEquiv.objCons (JEquiv.str "x")
              (JEquiv.objCons (JEquiv.num 1) JEquiv.objNil)))
          JEquiv.objNil)))

/-- The history while-loop is the elementwise record construction, in
iterator order. -/
theorem historyLoop_eq_map {α : Type} (parse : String → Option α) :
    ∀ ms : List KeyModification,
      historyLoop parse ms = ms.map (historyRecordOf parse)
  | [] => rfl
  | m :: rest => by simp [historyLoop, historyLoop_eq_map parse rest]

/-- C9: GetFertilizerHistory of the two-hop contract variant replays
the versioned-history iterator of the key. For a unit id present on the
committed ledger it returns, in iterator (oldest-first) order, exactly
one record per yielded version, carrying the transaction id as version
marker, the deletion flag, and the value: null when the stored bytes of
the version are empty (deleted), the decoded value when the decoder
succeeds, and the raw bytes of that version when decoding fails — the
failure of one version never aborts the call. -/
theorem history_replay_spec {α : Type} (s : WorldState)
    (histOf : String → List KeyModification) (parse : String → Option α)
    (fertilizerId : String)
    (hex : (getState s fertilizerId).isSome = true) :
    GetFertilizerHistory s histOf parse fertilizerId =
      .ok ((histOf fertilizerId).map (historyRecordOf parse)) ∧
    ((histOf fertilizerId).map (historyRecordOf parse)).length =
      (histOf fertilizerId).length ∧
    (∀ m : KeyModification,
      (historyRecordOf parse m).txId = m.txId ∧
      (historyRecordOf parse m).timestampStr = m.timestampStr ∧
      (historyRecordOf parse m).isDelete = m.isDelete ∧
      (m.value.length = 0 → (historyRecordOf parse m).value = .nullValue) ∧
      (∀ a : α, m.value.length > 0 → parse m.value = some a →
        (historyRecordOf parse m).value = .parsed a) ∧
      (m.value.length > 0 → parse m.value = none →
        (historyRecordOf parse m).value = .raw m.value)) := by
  refine ⟨?_, List.length_map _ _, ?_⟩
  · simp [GetFertilizerHistory, hex, historyLoop_eq_map]
  · intro m
    refine ⟨rfl, rfl, rfl, ?_, ?_, ?_⟩
    · intro h0
      simp [historyRecordOf, h0]
    · intro a hl hp
      simp [historyRecordOf, hl, hp]
    · intro hl hp
      simp [historyRecordOf, hl, hp]

/-- C9 witness: the replay theorem applied at the concrete key F001
with a three-version history containing a decode failure and a deleted
version. -/
theorem history_replay_spec_witness :
    GetFertilizerHistory sInTransit histEx parseEx "F001" =
      .ok ((histEx "F001").map (historyRecordOf parseEx)) ∧
    ((histEx "F001").map (historyRecordOf parseEx)).length =
      (histEx "F001").length ∧
    (∀ m : KeyModification,
      (historyRecordOf parseEx m).txId = m.txId ∧
      (historyRecordOf parseEx m).timestampStr = m.timestampStr ∧
      (historyRecordOf parseEx m).isDelete = m.isDelete ∧
      (m.value.length = 0 → (historyRecordOf parseEx m).value = .nullValue) ∧
      (∀ a : Nat, m.value.length > 0 → parseEx m.value = some a →
        (historyRecordOf parseEx m).value = .parsed a) ∧
      (m.value.length > 0 → parseEx m.value = none →
        (historyRecordOf parseEx m).value = .raw m.value)) :=
  history_replay_spec sInTransit histEx parseEx "F001" (by decide)

end FabricSupply
